import Mathlib

/-!
consul-terraform-sync: exit codes, driver registry and the task execution controller

A shallow embedding of

* the exit-code constant block of `command/cli.go`,
* the driver registry `driver/drivers.go` (`Drivers` and its methods),
* the per-task execution unit `ReadWrite.checkApply` of `controller/readwrite.go`,
* the two modes of the controller, `ReadWrite.Once` and `ReadWrite.Run` with
  `ReadWrite.runTasks`,

followed by the properties established about them.

Conventions of the embedding.

* A Go `error` is `GoError := Option String`: `none` is `nil`, `some msg` is an
  error whose `Error()` text is `msg`.
* A Go `map[string]V` is an association list `List (String × V)`; the three map
  primitives (`m[k]`, `m[k] = v`, `delete(m, k)`) are `GoMap.get?`, `GoMap.set`
  and `GoMap.delete`.  Iteration order over a Go map is unspecified; where the
  source ranges over a map the embedding ranges over the list.
* Methods with a pointer receiver take the receiver state as their last
  argument and return the new state next to their Go results.
* The `select` statements of `Once` and `Run` wait on the watcher and on the
  context; what they meet is given to the loops as a list of wake-ups.
* The goroutines of `runTasks` are steps on a state (`Tick`); a worker takes
  two steps, its call of `checkApply` and its return from it, and the effect
  of `checkApply` on the controller takes place at the call.  `LoopState` adds
  the loop of `runTasks` entry by entry and the ad-hoc executions of the spec.
-/

namespace CTS

/-- A Go `error` value: `none` is `nil`, `some msg` an error with message `msg`. -/
abbrev GoError := Option String

/-! ## Go maps -/

namespace GoMap

/-- The lookup `v, ok := m[k]`: `some v` when `ok`, `none` otherwise. -/
def get? {β : Type} (k : String) : List (String × β) → Option β
  | [] => none
  | (k', v) :: rest => if k' = k then some v else get? k rest

/-- The builtin `delete(m, k)`. -/
def delete {β : Type} (k : String) (m : List (String × β)) : List (String × β) :=
  m.filter (fun p => decide (p.1 ≠ k))

/-- The assignment `m[k] = v`: binds `k` to `v`, replacing an earlier binding. -/
def set {β : Type} (k : String) (v : β) (m : List (String × β)) : List (String × β) :=
  (k, v) :: delete k m

/-- The keys a `for k := range m` loop visits. -/
def keys {β : Type} (m : List (String × β)) : List String :=
  m.map Prod.fst

end GoMap

/-! ## `command/cli.go`: exit codes -/

namespace command

/-- The expression `10 + iota` of the const block.  In Go `iota` is the index of
the ConstSpec inside its `const ( ... )` block, and a ConstSpec without an
expression repeats the previous one with its own `iota`. -/
def exitCodeExpr (iota : Int) : Int := 10 + iota

/-- ConstSpec 0 of the block: `ExitCodeOK int = 0`. -/
def ExitCodeOK : Int := 0

/-- ConstSpec 1 of the block: `ExitCodeError = 10 + iota`. -/
def ExitCodeError : Int := exitCodeExpr 1

/-- ConstSpec 2 of the block (implicit repetition). -/
def ExitCodeInterrupt : Int := exitCodeExpr 2

/-- ConstSpec 3 of the block (implicit repetition). -/
def ExitCodeRequiredFlagsError : Int := exitCodeExpr 3

/-- ConstSpec 4 of the block (implicit repetition). -/
def ExitCodeParseFlagsError : Int := exitCodeExpr 4

/-- ConstSpec 5 of the block (implicit repetition). -/
def ExitCodeConfigError : Int := exitCodeExpr 5

/-- ConstSpec 6 of the block (implicit repetition). -/
def ExitCodeDriverError : Int := exitCodeExpr 6

end command

/-! ## Contexts -/

/-- A `context.Context` as far as the controller observes it: whether it has
been cancelled (`ctx.Done()` is closed). -/
structure Context where
  cancelled : Bool
deriving DecidableEq, Repr

/-- The method `ctx.Err()`. -/
def Context.Err (ctx : Context) : GoError :=
  if ctx.cancelled then some "context canceled" else none

/-- The context once it has been cancelled: `ctx.Done()` is closed from then on. -/
def Context.cancel (ctx : Context) : Context :=
  { ctx with cancelled := true }

/-! ## `driver`: tasks, drivers and the registry -/

namespace driver

/-- Modelled from the spec: the task descriptor a driver returns from `Task()`,
declared outside the files embedded here (§3 TaskDescriptor; the name is a
non-empty string there).  The fields are the accessors `checkApply` calls:
`Name()`, `IsEnabled()`, `ProviderNames()`, `ServiceNames()` and `Source()`. -/
structure Task where
  Name : String
  IsEnabled : Bool
  ProviderNames : List String
  ServiceNames : List String
  Source : String
deriving DecidableEq, Repr

/-- Modelled from the spec: the `Driver` interface, declared outside the files
embedded here (§3).  `σ` is the state of everything behind the drivers
(templates, the catalog, the infrastructure tool); `RenderTemplate` and
`ApplyTask` read and update it.  `SetBufferPeriod()` has no result; it only
updates that state, and does nothing unless a driver says otherwise. -/
structure Driver (σ : Type) where
  Task : Task
  TemplateIDs : List String
  RenderTemplate : Context → σ → (Bool × GoError) × σ
  ApplyTask : Context → σ → GoError × σ
  SetBufferPeriod : σ → σ := id

/-- The struct `Drivers`.  The two mutexes only serialise access and carry no
data; `active` is the key set of the `sync.Map` (its values are `struct{}{}`). -/
structure Drivers (σ : Type) where
  drivers : List (String × Driver σ)
  driverTemplates : List (String × String)
  active : List (String × Unit)

/-- The constructor `NewDrivers`: empty maps, and the zero value of `sync.Map`. -/
def NewDrivers {σ : Type} : Drivers σ :=
  { drivers := [], driverTemplates := [], active := [] }

/-- The method `Drivers.Add`.  The `driver` argument is an interface value,
`none` is `nil`. -/
def Drivers.Add {σ : Type} (taskName : String) (driver : Option (Driver σ))
    (d : Drivers σ) : GoError × Drivers σ :=
  if taskName = "" then
    (some "error adding driver: task name cannot be empty", d)
  else
    match driver with
    | none =>
      (some ("error adding driver: \x27" ++ taskName ++ "\x27 driver cannot be nil"), d)
    | some drv =>
      match GoMap.get? taskName d.drivers with
      | some _ =>
        (some ("error adding driver: a driver already exists for \x27" ++ taskName ++ "\x27"), d)
      | none =>
        (none,
          { d with
            drivers := GoMap.set taskName drv d.drivers
            driverTemplates :=
              drv.TemplateIDs.foldl (fun m id => GoMap.set id taskName m) d.driverTemplates })

/-- The method `Drivers.Get`. -/
def Drivers.Get {σ : Type} (taskName : String) (d : Drivers σ) : Option (Driver σ) × Bool :=
  match GoMap.get? taskName d.drivers with
  | none => (none, false)
  | some drv => (some drv, true)

/-- The method `Drivers.GetTask`: a missing key yields the zero string and
`false`. -/
def Drivers.GetTask {σ : Type} (tmplID : String) (d : Drivers σ) : String × Bool :=
  match GoMap.get? tmplID d.driverTemplates with
  | none => ("", false)
  | some taskName => (taskName, true)

/-- One iteration of the loop in `Reset`: `delete(d.drivers, k); d.active.Delete(k)`. -/
def Drivers.resetStep {σ : Type} (d : Drivers σ) (k : String) : Drivers σ :=
  { d with drivers := GoMap.delete k d.drivers, active := GoMap.delete k d.active }

/-- The method `Drivers.Reset`: the loop ranges over the keys of `d.drivers`. -/
def Drivers.Reset {σ : Type} (d : Drivers σ) : Drivers σ :=
  (GoMap.keys d.drivers).foldl Drivers.resetStep d

/-- The method `Drivers.Len`. -/
def Drivers.Len {σ : Type} (d : Drivers σ) : Nat :=
  d.drivers.length

/-- The method `Drivers.Map`: a copy of the drivers map. -/
def Drivers.Map {σ : Type} (d : Drivers σ) : List (String × Driver σ) :=
  d.drivers.foldl (fun copy kv => GoMap.set kv.1 kv.2 copy) []

/-- The method `Drivers.SetBufferPeriod`: calls `SetBufferPeriod()` on every
registered driver. -/
def Drivers.SetBufferPeriod {σ : Type} (d : Drivers σ) (world : σ) : σ :=
  d.drivers.foldl (fun w kv => kv.2.SetBufferPeriod w) world

/-- The method `Drivers.SetActive`. -/
def Drivers.SetActive {σ : Type} (name : String) (d : Drivers σ) : Bool × Drivers σ :=
  (true, { d with active := GoMap.set name () d.active })

/-- The method `Drivers.SetInactive`. -/
def Drivers.SetInactive {σ : Type} (name : String) (d : Drivers σ) : Bool × Drivers σ :=
  match GoMap.get? name d.active with
  | some _ => (true, { d with active := GoMap.delete name d.active })
  | none => (false, d)

/-- The method `Drivers.IsActive`. -/
def Drivers.IsActive {σ : Type} (name : String) (d : Drivers σ) : Bool :=
  (GoMap.get? name d.active).isSome

/-- The method `Drivers.Delete`: removes the driver for the given task name from
the map of drivers. -/
def Drivers.Delete {σ : Type} (taskName : String) (d : Drivers σ) : GoError × Drivers σ :=
  if taskName = "" then
    (some "task name cannot be empty", d)
  else
    (none, { d with drivers := GoMap.delete taskName d.drivers })

/-- A call of one of the state-changing methods of the registry. -/
inductive Op (σ : Type) where
  | Add (taskName : String) (driver : Option (Driver σ))
  | Delete (taskName : String)
  | Reset
  | SetActive (name : String)
  | SetInactive (name : String)

/-- The registry after one call. -/
def Op.apply {σ : Type} : Op σ → Drivers σ → Drivers σ
  | .Add taskName driver, d => (d.Add taskName driver).2
  | .Delete taskName, d => (d.Delete taskName).2
  | .Reset, d => d.Reset
  | .SetActive name, d => (d.SetActive name).2
  | .SetInactive name, d => (d.SetInactive name).2

/-- The registry reached from `NewDrivers()` by a sequence of calls. -/
def reach {σ : Type} (ops : List (Op σ)) : Drivers σ :=
  ops.foldl (fun d op => op.apply d) NewDrivers

/-- Whether a call is one of `Delete` and `Reset`, the two methods that remove
drivers. -/
def Op.removes {σ : Type} : Op σ → Bool
  | .Delete _ => true
  | .Reset => true
  | _ => false

/-- Invariant I1 of the registry: every template id bound in the template index
(`GetTask` reports it present) maps to a task name that is present in the
drivers map (`Get` reports it present). -/
def I1 {σ : Type} (d : Drivers σ) : Prop :=
  ∀ tmplID : String, (d.GetTask tmplID).2 = true → (d.Get (d.GetTask tmplID).1).2 = true

/-- A driver over a call counter: both operations return fixed results and
count the call. -/
def fixedDriver (task : Task) (templateIDs : List String) (render : Bool × GoError)
    (apply : GoError) : Driver Nat :=
  { Task := task
    TemplateIDs := templateIDs
    RenderTemplate := fun _ n => (render, n + 1)
    ApplyTask := fun _ n => (apply, n + 1) }

/-- An enabled task named `web`. -/
def webTask : Task :=
  { Name := "web", IsEnabled := true, ProviderNames := ["local"], ServiceNames := ["api"],
    Source := "./module" }

/-- A driver for `webTask` owning the template `tmpl-web`; it renders at once
and applies without error. -/
def webDriver : Driver Nat :=
  fixedDriver webTask ["tmpl-web"] (true, none) none

/-- An enabled task named `db`. -/
def dbTask : Task :=
  { Name := "db", IsEnabled := true, ProviderNames := ["local"], ServiceNames := ["db"],
    Source := "./module" }

/-- A driver for `dbTask` that claims the template `tmpl-web` of `webDriver`
next to its own `tmpl-db`; it renders at once and applies without error. -/
def dbDriver : Driver Nat :=
  fixedDriver dbTask ["tmpl-web", "tmpl-db"] (true, none) none

end driver

/-! ## `event`: outcome records and their store -/

namespace event

/-- The struct literal `event.Config` built by `checkApply`. -/
structure Config where
  Providers : List String
  Services : List String
  Source : String
deriving DecidableEq, Repr

/-- Modelled from the spec: the Event record of the event package, declared
outside the files embedded here (§3: task id, providers, services, source,
start, end, optional error description).  The two wall-clock stamps are kept as the flags
`started` and `ended`; `ended` marks a finalized event. -/
structure Event where
  taskID : String
  providers : List String
  services : List String
  source : String
  started : Bool
  ended : Bool
  err : GoError
deriving DecidableEq, Repr

/-- Modelled from the spec: `event.NewEvent`, declared outside the files
embedded here.  It builds a fresh event carrying the task metadata (§4.4 step 2).  The
source shows that it can fail; the one validity condition the spec puts on an
event is a task id (§3 non-empty name, §4.2 and §7 `InvalidArgument`), and the
constructor is taken to enforce it. -/
def NewEvent (taskName : String) (config : Config) : Except String Event :=
  if taskName = "" then
    .error "error creating event: task name cannot be empty"
  else
    .ok { taskID := taskName, providers := config.Providers, services := config.Services,
          source := config.Source, started := false, ended := false, err := none }

/-- Modelled from the spec: `Event.Start`, stamping the start of the execution. -/
def Event.Start (e : Event) : Event :=
  { e with started := true }

/-- Modelled from the spec: `Event.End`, finalizing the event with the outcome
of the execution (`nil` on success). -/
def Event.End (e : Event) (err : GoError) : Event :=
  { e with ended := true, err := err }

/-- Modelled from the spec: the state of the event store, declared outside the
files embedded here (§3, §4.2): per task, the finalized events oldest first,
bounded by `limit`. -/
structure Store where
  limit : Nat
  events : List (String × List Event)
deriving DecidableEq, Repr

/-- Modelled from the spec: `event.NewStore`, an empty store with the suggested
capacity of 5 events per task. -/
def NewStore : Store :=
  { limit := 5, events := [] }

/-- Modelled from the spec: `Store.Read`, the events of a task in insertion
order. -/
def Store.Read (taskName : String) (s : Store) : List Event :=
  (GoMap.get? taskName s.events).getD []

/-- Modelled from the spec: `Store.Add` (§4.2): rejects an event lacking a task
id; otherwise appends it to the list of its task and, when the list exceeds the
capacity, drops the oldest events. -/
def Store.Add (e : Event) (s : Store) : GoError × Store :=
  if e.taskID = "" then
    (some "error adding event: task name cannot be empty", s)
  else
    let evs := s.Read e.taskID ++ [e]
    (none, { s with events := GoMap.set e.taskID (evs.drop (evs.length - s.limit)) s.events })

end event

/-! ## `retry`: the retry policy -/

namespace retry

/-- Modelled from the spec: the retry policy, declared outside the files
embedded here (§3: max-attempts `N` and a random source).  The random source only
perturbs the waiting times and is left out. -/
structure Retry where
  maxAttempts : Nat
deriving DecidableEq, Repr

/-- The call `retry.NewRetry(defaultRetry, seed)`. -/
def NewRetry (maxAttempts : Nat) (_seed : Int) : Retry :=
  { maxAttempts := maxAttempts }

/-- Modelled from the spec: the attempts of `Do` after the first one has failed
with `last` (§4.3).  Before each further attempt the policy waits; a context
cancelled during the wait ends the call with the cancellation cause wrapped
around the last error.  When no attempt is left the last error is surfaced. -/
def Retry.more {α : Type} (ctx : Context) (f : Context → α → GoError × α) (desc : String) :
    Nat → String → α → GoError × α
  | 0, last, a => (some ("retries exhausted for " ++ desc ++ ": " ++ last), a)
  | k + 1, last, a =>
    if ctx.cancelled then
      (some ("context canceled while retrying " ++ desc ++ ": " ++ last), a)
    else
      match f ctx a with
      | (none, a') => (none, a')
      | (some e, a') => Retry.more ctx f desc k e a'

/-- Modelled from the spec: `Retry.Do` (§4.3): executes `f(ctx)`, and on failure
retries it up to `maxAttempts` attempts in total.  `α` is the state `f` acts
on. -/
def Retry.Do {α : Type} (r : Retry) (ctx : Context) (f : Context → α → GoError × α)
    (desc : String) (a : α) : GoError × α :=
  match f ctx a with
  | (none, a') => (none, a')
  | (some e, a') => Retry.more ctx f desc (r.maxAttempts - 1) e a'

end retry

/-! ## `controller`: the task execution unit -/

namespace controller

open driver

/-- Number of times to retry attempts (`defaultRetry`). -/
def defaultRetry : Nat := 2

/-- A call of a driver made by the controller, named by the task of the driver. -/
inductive Call where
  | RenderTemplate (taskName : String)
  | ApplyTask (taskName : String)
deriving DecidableEq, Repr

/-- The struct `ReadWrite` together with what its methods act upon: the
registry of the embedded base controller, the event store, the retry policy,
the state `world` behind the drivers, and `calls`, the log of the driver calls
made so far (a record of the execution, never read by the code).
`taskNotify` is the test channel: `none` is the nil channel, `some names` lists
the names sent on it so far.  The logger and the configuration are left out;
what the watcher delivers is an input of `Once` and `Run`. -/
structure ReadWrite (σ : Type) where
  drivers : Drivers σ
  store : event.Store
  retry : retry.Retry
  world : σ
  calls : List Call
  taskNotify : Option (List String) := none

/-- The constructor `NewReadWrite`, on a given registry and initial state of the
world. -/
def NewReadWrite {σ : Type} (drivers : Drivers σ) (world : σ) (seed : Int) : ReadWrite σ :=
  { drivers := drivers, store := event.NewStore, retry := retry.NewRetry defaultRetry seed,
    world := world, calls := [] }

/-- The call `d.RenderTemplate(ctx)`, recorded in the log. -/
def callRenderTemplate {σ : Type} (d : Driver σ) (ctx : Context) (rw : ReadWrite σ) :
    (Bool × GoError) × ReadWrite σ :=
  match d.RenderTemplate ctx rw.world with
  | (r, world') =>
    (r, { rw with world := world', calls := rw.calls ++ [Call.RenderTemplate d.Task.Name] })

/-- The call `d.ApplyTask(ctx)`, recorded in the log. -/
def callApplyTask {σ : Type} (d : Driver σ) (ctx : Context) (rw : ReadWrite σ) :
    GoError × ReadWrite σ :=
  match d.ApplyTask ctx rw.world with
  | (err, world') =>
    (err, { rw with world := world', calls := rw.calls ++ [Call.ApplyTask d.Task.Name] })

/-- The closure `storeEvent` of `checkApply`, run with the value `storedErr` has
when the deferred call fires: `ev.End(storedErr)` and `rw.store.Add(*ev)`, whose
error is only logged. -/
def storeEvent {σ : Type} (ev : event.Event) (storedErr : GoError) (rw : ReadWrite σ) :
    ReadWrite σ :=
  { rw with store := (rw.store.Add (ev.End storedErr)).2 }

/-- The apply step of `checkApply`: through the retry policy when `retry` is
set, directly otherwise. -/
def applyStep {σ : Type} (ctx : Context) (d : Driver σ) (retry : Bool) (rw : ReadWrite σ) :
    GoError × ReadWrite σ :=
  if retry then
    rw.retry.Do ctx (callApplyTask d) ("ApplyTask " ++ d.Task.Name) rw
  else
    callApplyTask d ctx rw

/-- The method `ReadWrite.checkApply`: a single run, render, apply of a task.
The deferred `storeEvent()` runs at the return of the branch that registered
it, with the value `storedErr` holds then. -/
def checkApply {σ : Type} (ctx : Context) (d : Driver σ) (retry : Bool) (rw : ReadWrite σ) :
    (Bool × GoError) × ReadWrite σ :=
  let task := d.Task
  let taskName := task.Name
  if !task.IsEnabled then
    ((true, none), rw)
  else
    match event.NewEvent taskName
        { Providers := task.ProviderNames, Services := task.ServiceNames,
          Source := task.Source } with
    | .error err =>
      ((false, some ("error creating event for task " ++ taskName ++ ": " ++ err)), rw)
    | .ok ev0 =>
      let ev := ev0.Start
      match callRenderTemplate d ctx rw with
      | ((_, some renderErr), rw1) =>
        ((false, some ("error rendering template for task " ++ taskName ++ ": " ++ renderErr)),
          storeEvent ev (some renderErr) rw1)
      | ((rendered, none), rw1) =>
        if rendered then
          match applyStep ctx d retry rw1 with
          | (some applyErr, rw2) =>
            ((false, some ("could not apply changes for task " ++ taskName ++ ": " ++ applyErr)),
              storeEvent ev (some applyErr) rw2)
          | (none, rw2) => ((rendered, none), storeEvent ev none rw2)
        else
          ((rendered, none), rw1)

/-- The event `checkApply` hands to the store for a task: created from the
task metadata, started, and finalized with the outcome `err`. -/
def finalizedEvent (task : Task) (err : GoError) : event.Event :=
  { taskID := task.Name, providers := task.ProviderNames, services := task.ServiceNames,
    source := task.Source, started := true, ended := true, err := err }

/-- A controller with an empty registry, an empty store and a fresh counter. -/
def emptyReadWrite : ReadWrite Nat :=
  NewReadWrite NewDrivers 0 0

/-- A driver for `webTask` that renders at once and whose apply fails. -/
def applyFailDriver : Driver Nat :=
  fixedDriver webTask ["tmpl-web"] (true, none) (some "apply failed")

/-- A driver for `webTask` whose render is not yet complete. -/
def pendingDriver : Driver Nat :=
  fixedDriver webTask ["tmpl-web"] (false, none) none

/-- A driver for `webTask` whose render fails. -/
def renderFailDriver : Driver Nat :=
  fixedDriver webTask ["tmpl-web"] (false, some "render failed") none

/-- A driver for a disabled task. -/
def disabledDriver : Driver Nat :=
  fixedDriver { webTask with IsEnabled := false } ["tmpl-web"] (true, none) none

/-- A driver for `dbTask` that renders at once and whose apply fails. -/
def dbFailDriver : Driver Nat :=
  fixedDriver dbTask ["tmpl-db"] (true, none) (some "apply failed")

/-- A driver for an enabled task named `cache`; it renders at once and applies
without error. -/
def cacheDriver : Driver Nat :=
  fixedDriver { webTask with Name := "cache" } ["tmpl-cache"] (true, none) none

/-- A driver for `webTask` that honours cancellation: with a cancelled context
its render and its apply return the cancellation error; otherwise it renders at
once and applies without error. -/
def cancelAwareDriver : Driver Nat :=
  { Task := webTask
    TemplateIDs := ["tmpl-web"]
    RenderTemplate := fun ctx n =>
      if ctx.cancelled then ((false, some "context canceled"), n + 1) else ((true, none), n + 1)
    ApplyTask := fun ctx n =>
      if ctx.cancelled then (some "context canceled", n + 1) else (none, n + 1) }

/-- A driver for `dbTask` whose render needs a second wake-up: it is not
complete while fewer than three driver calls have been made, and complete from
then on; its apply succeeds. -/
def slowDbDriver : Driver Nat :=
  { Task := dbTask
    TemplateIDs := ["tmpl-db"]
    RenderTemplate := fun _ n => if n < 3 then ((false, none), n + 1) else ((true, none), n + 1)
    ApplyTask := fun _ n => (none, n + 1) }

/-- A controller over a fresh counter and an empty store whose registry holds
the given drivers, each registered under the name of its task. -/
def readWriteOf (drivers : List (Driver Nat)) : ReadWrite Nat :=
  NewReadWrite (drivers.foldl (fun reg d => (reg.Add d.Task.Name (some d)).2) NewDrivers) 0 0

/-- A controller with `web`, `db` (whose apply fails) and `cache` registered, on
which an ad-hoc run has marked `db` active. -/
def dbActiveReadWrite : ReadWrite Nat :=
  { readWriteOf [webDriver, dbFailDriver, cacheDriver] with
    drivers := ((readWriteOf [webDriver, dbFailDriver, cacheDriver]).drivers.SetActive "db").2 }

/-! ### `Once` -/

/-- The `select` of `Once` and `Run`, by the case that fires: the watcher
channel delivers `err` (nil on a dependency change), or `ctx.Done()` is closed.
The wake-ups of a run are an input of the loops; a loop that finds none left
stays blocked in its `select`. -/
inductive Wake where
  | watcher (err : GoError)
  | ctxDone
deriving DecidableEq, Repr

/-- The variables of `Once` across its loops: the map `completed`, the flag
`done`, the controller, and `invoked`, the names of the tasks `checkApply` has
been invoked for, in order (a record of the execution, never read by the
code). -/
structure OnceState (σ : Type) where
  completed : List (String × Bool)
  done : Bool
  invoked : List String
  rw : ReadWrite σ

/-- The inner loop of `Once`, `for taskName, d := range driversCopy`.  The first
component is the error of the `return err` that leaves `Once` from inside the
loop, `none` when the loop runs to its end. -/
def onceRange {σ : Type} (ctx : Context) :
    List (String × Driver σ) → OnceState σ → GoError × OnceState σ
  | [], s => (none, s)
  | (taskName, d) :: rest, s =>
    if !((GoMap.get? taskName s.completed).getD false) then
      match checkApply ctx d false s.rw with
      | ((_, some err), rw') =>
        (some err, { s with invoked := s.invoked ++ [taskName], rw := rw' })
      | ((complete, none), rw') =>
        onceRange ctx rest
          { completed := GoMap.set taskName complete s.completed
            done := if !complete && s.done then false else s.done
            invoked := s.invoked ++ [taskName]
            rw := rw' }
    else
      onceRange ctx rest s

/-- One iteration of the outer loop of `Once`: the pass over `driversCopy` with
`done` set, the two returns that follow it, and otherwise the `select`, whose
outcome on the variables after the pass is `select`.  A result `none` is a loop
that stays blocked in its `select`; otherwise the result holds the returned
error, the wake-ups not consumed, and the final variables. -/
def onceIteration {σ : Type} (ctx : Context) (driversCopy : List (String × Driver σ))
    (wakes : List Wake) (s : OnceState σ)
    (select : OnceState σ → Option (GoError × List Wake × OnceState σ)) :
    Option (GoError × List Wake × OnceState σ) :=
  match onceRange ctx driversCopy { s with done := true } with
  | (some err, s1) => some (some err, wakes, s1)
  | (none, s1) => if s1.done then some (none, wakes, s1) else select s1

/-- The outer loop of `Once`, from the top of an iteration, by the wake-up its
`select` would meet: none left (the loop blocks), an error from the watcher
(returned), a nil from the watcher (next iteration), or the context done (its
error is returned). -/
def onceLoop {σ : Type} (ctx : Context) (driversCopy : List (String × Driver σ)) :
    List Wake → OnceState σ → Option (GoError × List Wake × OnceState σ)
  | [], s => onceIteration ctx driversCopy [] s (fun _ => none)
  | Wake.watcher (some err) :: rest, s =>
    onceIteration ctx driversCopy (Wake.watcher (some err) :: rest) s
      (fun s1 => some (some err, rest, s1))
  | Wake.watcher none :: rest, s =>
    onceIteration ctx driversCopy (Wake.watcher none :: rest) s
      (fun s1 => onceLoop ctx driversCopy rest s1)
  | Wake.ctxDone :: rest, s =>
    onceIteration ctx driversCopy (Wake.ctxDone :: rest) s
      (fun s1 => some (ctx.cancel.Err, rest, s1))

/-- The method `ReadWrite.Once`. -/
def Once {σ : Type} (ctx : Context) (wakes : List Wake) (rw : ReadWrite σ) :
    Option (GoError × List Wake × OnceState σ) :=
  onceLoop ctx rw.drivers.Map wakes { completed := [], done := true, invoked := [], rw := rw }

/-- The run `Once` makes when every enabled driver renders at once and applies
without error: going through the drivers in order, the render of an enabled
driver returns `(true, nil)` in the state it is called in, and its apply
returns nil in the state the render leaves. -/
def rendersAndApplies {σ : Type} (ctx : Context) :
    List (String × Driver σ) → ReadWrite σ → Prop
  | [], _ => True
  | (_, d) :: rest, rw =>
    (d.Task.IsEnabled = true →
      (d.RenderTemplate ctx rw.world).1 = (true, none) ∧
        (d.ApplyTask ctx (d.RenderTemplate ctx rw.world).2).1 = none) ∧
      rendersAndApplies ctx rest (checkApply ctx d false rw).2

/-- The events of a pass in which every enabled task is applied without error,
in the order of the pass. -/
def successEvents {σ : Type} (drivers : List (String × Driver σ)) : List event.Event :=
  (drivers.filter (fun kd => kd.2.Task.IsEnabled)).map (fun kd => finalizedEvent kd.2.Task none)

/-- The number of `ApplyTask` calls made so far for the task named `n`. -/
def applyCount {σ : Type} (n : String) (rw : ReadWrite σ) : Nat :=
  rw.calls.count (Call.ApplyTask n)

/-- The number of events the store holds for the task named `n`. -/
def eventCount {σ : Type} (n : String) (rw : ReadWrite σ) : Nat :=
  (rw.store.Read n).length

/-! ### `runTasks` and `Run` -/

/-- An invocation of `checkApply`: the task and the value of `retry`. -/
structure Invocation where
  taskName : String
  retry : Bool
deriving DecidableEq, Repr

/-- The goroutines of one call of `runTasks`: the controller they act on, the
workers launched whose goroutine has not called `checkApply` yet, the workers
inside `checkApply` (each with the result its call returns: the effect of the
call on the controller takes place when it is made), the counter of the
`sync.WaitGroup`, the errors sent on `errCh` so far, whether `errCh` is closed,
and `invoked`, the invocations of `checkApply` made so far (a record of the
execution, never read by the code). -/
structure Tick (σ : Type) where
  rw : ReadWrite σ
  pending : List (String × Driver σ)
  running : List (String × (Bool × GoError))
  wg : Nat
  errCh : List String
  closed : Bool
  invoked : List Invocation

/-- One iteration of the loop of `runTasks` over `rw.drivers.Map()`: an active
task is skipped, for any other `wg.Add(1)` is called and a worker launched. -/
def dispatchOne {σ : Type} (taskName : String) (d : Driver σ) (t : Tick σ) : Tick σ :=
  if t.rw.drivers.IsActive taskName then
    t
  else
    { t with wg := t.wg + 1, pending := t.pending ++ [(taskName, d)] }

/-- The loop of `runTasks` over `rw.drivers.Map()`. -/
def dispatch {σ : Type} : List (String × Driver σ) → Tick σ → Tick σ
  | [], t => t
  | (taskName, d) :: rest, t => dispatch rest (dispatchOne taskName d t)

/-- The variables of `runTasks` at its entry: nothing launched, the channel
open. -/
def Tick.enter {σ : Type} (rw : ReadWrite σ) : Tick σ :=
  { rw := rw, pending := [], running := [], wg := 0, errCh := [], closed := false,
    invoked := [] }

/-- The method `ReadWrite.runTasks`, up to its `return errCh`: the workers are
launched and the closing goroutine waits. -/
def runTasks {σ : Type} (_ctx : Context) (rw : ReadWrite σ) : Tick σ :=
  dispatch rw.drivers.Map (Tick.enter rw)

/-- The call `rw.checkApply(ctx, d, retry)` a goroutine makes for the task
`taskName`, recorded in the log of invocations with the value of `retry` it
passes. -/
def invokeCheckApply {σ : Type} (ctx : Context) (taskName : String) (d : Driver σ)
    (retry : Bool) (t : Tick σ) : (Bool × GoError) × Tick σ :=
  match checkApply ctx d retry t.rw with
  | (result, rw') =>
    (result,
      { t with rw := rw', invoked := t.invoked ++ [{ taskName := taskName, retry := retry }] })

/-- The body of a worker goroutine of `runTasks` from the return of its
`checkApply`: the error is sent on `errCh`, the name of a completed task on
`taskNotify` when that channel is not nil, and `wg.Done()` is called. -/
def workerReturn {σ : Type} (taskName : String) (result : Bool × GoError) (t : Tick σ) :
    Tick σ :=
  { t with
    rw :=
      match t.rw.taskNotify with
      | some names =>
        if result.1 then { t.rw with taskNotify := some (names ++ [taskName]) } else t.rw
      | none => t.rw
    errCh :=
      match result.2 with
      | some e => t.errCh ++ [e]
      | none => t.errCh
    wg := t.wg - 1 }

/-- The body of a worker goroutine of `runTasks`, run in one piece: the call
`rw.checkApply(ctx, d, true)` and what follows its return. -/
def worker {σ : Type} (ctx : Context) (taskName : String) (d : Driver σ) (t : Tick σ) :
    Tick σ :=
  match invokeCheckApply ctx taskName d true t with
  | (result, t') => workerReturn taskName result t'

/-- A step of the goroutines of a tick: the `i`-th worker not yet started calls
`checkApply`; the `j`-th worker inside `checkApply` returns from it and runs to
its end; or the closing goroutine passes `wg.Wait()` and closes `errCh`. -/
inductive TickStep where
  | start (i : Nat)
  | finish (j : Nat)
  | close
deriving DecidableEq, Repr

/-- The effect of a step, `none` when the step cannot be taken: there is no
such worker, or the counter of the wait group is not zero, or the channel is
closed already. -/
def Tick.step {σ : Type} (ctx : Context) : TickStep → Tick σ → Option (Tick σ)
  | TickStep.start i, t =>
    match t.pending[i]? with
    | none => none
    | some (taskName, d) =>
      match invokeCheckApply ctx taskName d true { t with pending := t.pending.eraseIdx i } with
      | (result, t') => some { t' with running := t'.running ++ [(taskName, result)] }
  | TickStep.finish j, t =>
    match t.running[j]? with
    | none => none
    | some (taskName, result) =>
      some (workerReturn taskName result { t with running := t.running.eraseIdx j })
  | TickStep.close, t =>
    if t.wg = 0 ∧ t.closed = false then some { t with closed := true } else none

/-- The effect of a schedule of the goroutines, step after step. -/
def Tick.run {σ : Type} (ctx : Context) : List TickStep → Tick σ → Option (Tick σ)
  | [], t => some t
  | a :: rest, t =>
    match Tick.step ctx a t with
    | none => none
    | some t' => Tick.run ctx rest t'

/-- The workers of a list run one after the other, each from its call of
`checkApply` to its end. -/
def Tick.workAll {σ : Type} (ctx : Context) : List (String × Driver σ) → Tick σ → Tick σ
  | [], t => t
  | (taskName, d) :: rest, t => Tick.workAll ctx rest (worker ctx taskName d t)

/-- A tick run to its end: the workers one after the other in the order they
were launched, then the close of `errCh`. -/
def Tick.finish {σ : Type} (ctx : Context) (t : Tick σ) : Tick σ :=
  { Tick.workAll ctx t.pending { t with pending := [] } with closed := true }

/-- The schedule of `Tick.finish` for `n` workers: each worker in turn starts
and finishes, then the channel is closed. -/
def sequentialSchedule : Nat → List TickStep
  | 0 => [TickStep.close]
  | n + 1 => TickStep.start 0 :: TickStep.finish 0 :: sequentialSchedule n

/-- What the steps of a tick keep true, for the names `names` of the workers
launched: the counter of the wait group counts the workers that have not run
to their end; the tasks invoked so far together with those not yet started are
the workers launched; every invocation is made with `retry` set; and once the
channel is closed no worker is left that has not run to its end. -/
def Tick.Inv {σ : Type} (names : List String) (t : Tick σ) : Prop :=
  t.wg = t.pending.length + t.running.length ∧
    List.Perm (t.invoked.map (fun inv => inv.taskName) ++ t.pending.map Prod.fst) names ∧
    (∀ inv ∈ t.invoked, inv.retry = true) ∧
    (t.closed = true → t.pending = [] ∧ t.running = [])

/-- The result of `Run`: the error returned, the number of ticks made, the
errors logged by the collector of `runTasks`, and the controller. -/
structure RunResult (σ : Type) where
  err : GoError
  ticks : Nat
  logged : List String
  rw : ReadWrite σ

/-- The loop of `Run`, from its `select`; `none` when it stays blocked there.
After a nil from the watcher the tasks run and every error read from the
channel of `runTasks` is logged. -/
def runLoop {σ : Type} (ctx : Context) :
    List Wake → Nat → List String → ReadWrite σ → Option (RunResult σ)
  | [], _, _, _ => none
  | Wake.watcher (some err) :: _, ticks, logged, rw =>
    some { err := some err, ticks := ticks, logged := logged, rw := rw }
  | Wake.ctxDone :: _, ticks, logged, rw =>
    some { err := ctx.cancel.Err, ticks := ticks, logged := logged, rw := rw }
  | Wake.watcher none :: rest, ticks, logged, rw =>
    runLoop ctx rest (ticks + 1) (logged ++ (Tick.finish ctx (runTasks ctx rw)).errCh)
      (Tick.finish ctx (runTasks ctx rw)).rw

/-- The method `ReadWrite.Run`. -/
def Run {σ : Type} (ctx : Context) (wakes : List Wake) (rw : ReadWrite σ) :
    Option (RunResult σ) :=
  runLoop ctx wakes 0 [] { rw with world := rw.drivers.SetBufferPeriod rw.world }

/-- The method `ReadWrite.EnableTestMode`. -/
def EnableTestMode {σ : Type} (rw : ReadWrite σ) : ReadWrite σ :=
  { rw with taskNotify := some [] }

/-! ### The dispatch loop next to ad-hoc executions -/

/-- Modelled from the spec: an ad-hoc execution of a task by a component outside
the loop, such as the status API, which lies outside the files embedded here
(§4.5: call `SetActive(name)`, invoke the task execution unit, call
`SetInactive(name)`).  The record is kept from the call of `SetActive`;
`executing` is set while the execution is inside `checkApply`. -/
structure AdHoc (σ : Type) where
  taskName : String
  driver : Driver σ
  executing : Bool

/-- A tick of the continuous loop while the loop of `runTasks` is still going
through the snapshot: the goroutines of the tick, the entries of the snapshot
the loop has not reached yet, and the ad-hoc executions under way. -/
structure LoopState (σ : Type) where
  tick : Tick σ
  todo : List (String × Driver σ)
  adhoc : List (AdHoc σ)

/-- The tick at the entry of `runTasks`, right after the snapshot
`rw.drivers.Map()`, with no ad-hoc execution under way. -/
def LoopState.enter {σ : Type} (rw : ReadWrite σ) : LoopState σ :=
  { tick := Tick.enter rw, todo := rw.drivers.Map, adhoc := [] }

/-- Modelled from the spec: step (i) of an ad-hoc execution (§4.5), the call
`SetActive(name)` for a registered task. -/
def adhocSetActive {σ : Type} (name : String) (s : LoopState σ) : Option (LoopState σ) :=
  match (s.tick.rw.drivers.Get name).1 with
  | none => none
  | some d =>
    some { s with
      tick := { s.tick with
        rw := { s.tick.rw with drivers := (s.tick.rw.drivers.SetActive name).2 } }
      adhoc := s.adhoc ++ [{ taskName := name, driver := d, executing := false }] }

/-- Modelled from the spec: step (ii) of an ad-hoc execution (§4.5), the
invocation of the task execution unit; the spec leaves the value of `retry`
open.  The effect of the call on the controller takes place when it is made. -/
def adhocInvoke {σ : Type} (ctx : Context) (j : Nat) (retry : Bool) (s : LoopState σ) :
    Option (LoopState σ) :=
  match s.adhoc[j]? with
  | none => none
  | some a =>
    if a.executing then
      none
    else
      some { s with
        tick := { s.tick with rw := (checkApply ctx a.driver retry s.tick.rw).2 }
        adhoc := s.adhoc.set j { a with executing := true } }

/-- Modelled from the spec: step (iii) of an ad-hoc execution (§4.5): the task
execution unit has returned and `SetInactive(name)` is called. -/
def adhocEnd {σ : Type} (j : Nat) (s : LoopState σ) : Option (LoopState σ) :=
  match s.adhoc[j]? with
  | none => none
  | some a =>
    if a.executing then
      some { s with
        tick := { s.tick with
          rw := { s.tick.rw with drivers := (s.tick.rw.drivers.SetInactive a.taskName).2 } }
        adhoc := s.adhoc.eraseIdx j }
    else
      none

/-- A step of a tick next to ad-hoc executions: the loop of `runTasks` visits
its next entry; a goroutine of the tick takes a step; or an ad-hoc execution
takes one of its three steps. -/
inductive LoopStep where
  | dispatch
  | goroutine (a : TickStep)
  | adhocSetActive (name : String)
  | adhocInvoke (j : Nat) (retry : Bool)
  | adhocEnd (j : Nat)
deriving DecidableEq, Repr

/-- The effect of a step, `none` when the step cannot be taken.  The closing
goroutine is started after the loop of `runTasks`, so it closes the channel
only when no entry is left to visit. -/
def LoopState.step {σ : Type} (ctx : Context) : LoopStep → LoopState σ → Option (LoopState σ)
  | LoopStep.dispatch, s =>
    match s.todo with
    | [] => none
    | (taskName, d) :: rest => some { s with tick := dispatchOne taskName d s.tick, todo := rest }
  | LoopStep.goroutine a, s =>
    match a, s.todo with
    | TickStep.close, _ :: _ => none
    | _, _ =>
      match Tick.step ctx a s.tick with
      | none => none
      | some t => some { s with tick := t }
  | LoopStep.adhocSetActive name, s => adhocSetActive name s
  | LoopStep.adhocInvoke j retry, s => adhocInvoke ctx j retry s
  | LoopStep.adhocEnd j, s => adhocEnd j s

/-- The effect of a schedule, step after step. -/
def LoopState.run {σ : Type} (ctx : Context) :
    List LoopStep → LoopState σ → Option (LoopState σ)
  | [], s => some s
  | a :: rest, s =>
    match LoopState.step ctx a s with
    | none => none
    | some s' => LoopState.run ctx rest s'

/-- The names of the tasks the loop has launched a worker for that has not
returned from `checkApply` yet, followed by the names of the entries the loop
has not reached. -/
def LoopState.names {σ : Type} (s : LoopState σ) : List String :=
  s.tick.pending.map Prod.fst ++ s.tick.running.map Prod.fst ++ s.todo.map Prod.fst

/-- The number of workers of the loop that are inside `checkApply` for the task
named `n`. -/
def workersInFlight {σ : Type} (n : String) (s : LoopState σ) : Nat :=
  s.tick.running.countP (fun w => decide (w.1 = n))

/-- The number of executions of `checkApply` under way for the task named `n`:
the workers of the loop and the ad-hoc executions inside `checkApply`. -/
def inFlight {σ : Type} (n : String) (s : LoopState σ) : Nat :=
  workersInFlight n s + s.adhoc.countP (fun a => a.executing && decide (a.taskName = n))

end controller

end CTS

/-! # Properties -/

namespace CTS

/-! ## Go maps -/

namespace GoMap

theorem delete_nil {β : Type} (k : String) : delete k ([] : List (String × β)) = [] := rfl

theorem delete_cons {β : Type} (k k' : String) (v : β) (m : List (String × β)) :
    delete k ((k', v) :: m) = if k' = k then delete k m else (k', v) :: delete k m := by
  by_cases h : k' = k <;> simp [delete, List.filter_cons, h]

theorem get?_delete_self {β : Type} (k : String) (m : List (String × β)) :
    get? k (delete k m) = none := by
  induction m with
  | nil => rfl
  | cons p m ih =>
    obtain ⟨k', v⟩ := p
    by_cases h : k' = k <;> simp [delete_cons, get?, h, ih]

theorem get?_delete_ne {β : Type} {k n : String} (h : n ≠ k) (m : List (String × β)) :
    get? n (delete k m) = get? n m := by
  induction m with
  | nil => rfl
  | cons p m ih =>
    obtain ⟨k', v⟩ := p
    by_cases hk : k' = k
    · have hn : ¬ k' = n := fun e => h (e ▸ hk)
      rw [delete_cons, if_pos hk, ih]
      simp [get?, hn]
    · rw [delete_cons, if_neg hk]
      by_cases hn : k' = n <;> simp [get?, hn, ih]

theorem get?_set_self {β : Type} (k : String) (v : β) (m : List (String × β)) :
    get? k (set k v m) = some v := by
  simp [set, get?]

theorem get?_set_ne {β : Type} {k n : String} (h : n ≠ k) (v : β) (m : List (String × β)) :
    get? n (set k v m) = get? n m := by
  have hk : ¬ k = n := fun e => h e.symm
  simp [set, get?, hk, get?_delete_ne h]

/-- Binding every id of a list to one value: the ids of the list end up bound
to it, every other key keeps its binding. -/
theorem get?_foldl_set {β : Type} (v : β) (n : String) (ids : List String)
    (m : List (String × β)) :
    get? n (ids.foldl (fun acc id => set id v acc) m) =
      if n ∈ ids then some v else get? n m := by
  induction ids generalizing m with
  | nil => simp
  | cons id ids ih =>
    rw [List.foldl_cons, ih]
    by_cases h1 : n ∈ ids
    · simp [h1]
    · by_cases h2 : n = id
      · subst h2
        simp [h1, get?_set_self]
      · simp [h1, h2, get?_set_ne h2]

theorem get?_isSome_iff_mem_keys {β : Type} (n : String) (m : List (String × β)) :
    (get? n m).isSome = true ↔ n ∈ keys m := by
  induction m with
  | nil => simp [get?, keys]
  | cons p m ih =>
    obtain ⟨k', v⟩ := p
    by_cases h : k' = n
    · simp [get?, keys, h]
    · have h' : ¬ n = k' := fun e => h e.symm
      simpa [get?, keys, h, h'] using ih

theorem get?_eq_none_iff {β : Type} (n : String) (m : List (String × β)) :
    get? n m = none ↔ n ∉ keys m := by
  rw [← get?_isSome_iff_mem_keys]
  cases get? n m <;> simp

/-- Deleting a list of keys one after the other. -/
theorem get?_foldl_delete {β : Type} (n : String) (ks : List String) (m : List (String × β)) :
    get? n (ks.foldl (fun acc k => delete k acc) m) = if n ∈ ks then none else get? n m := by
  induction ks generalizing m with
  | nil => simp
  | cons k ks ih =>
    rw [List.foldl_cons, ih]
    by_cases h1 : n ∈ ks
    · simp [h1]
    · by_cases h2 : n = k
      · subst h2
        simp [h1, get?_delete_self]
      · simp [h1, h2, get?_delete_ne h2]

theorem mem_delete {β : Type} {k : String} {p : String × β} {m : List (String × β)}
    (h : p ∈ delete k m) : p ∈ m ∧ p.1 ≠ k := by
  simpa [delete] using h

/-- Deleting every key of a map leaves the empty map. -/
theorem foldl_delete_eq_nil {β : Type} (ks : List String) (m : List (String × β))
    (h : ∀ p ∈ m, p.1 ∈ ks) : ks.foldl (fun acc k => delete k acc) m = [] := by
  induction ks generalizing m with
  | nil =>
    cases m with
    | nil => rfl
    | cons p m => exact absurd (h p (List.mem_cons_self _ _)) (List.not_mem_nil _)
  | cons k ks ih =>
    rw [List.foldl_cons]
    apply ih
    intro p hp
    obtain ⟨hm, hne⟩ := mem_delete hp
    rcases List.mem_cons.mp (h p hm) with e | e
    · exact absurd e hne
    · exact e

end GoMap

end CTS

namespace CTS

/-! ## Exit codes -/

namespace command

/-- C1: the values of the exit-code constants as the const block defines them.
`ExitCodeOK` is 0; `ExitCodeError` is the second ConstSpec of the block, so its
`iota` is 1 and the error codes run from 11 to 16, not from 10 to 15. -/
theorem exit_code_values :
    ExitCodeOK = 0 ∧ ExitCodeError = 11 ∧ ExitCodeInterrupt = 12 ∧
      ExitCodeRequiredFlagsError = 13 ∧ ExitCodeParseFlagsError = 14 ∧
      ExitCodeConfigError = 15 ∧ ExitCodeDriverError = 16 ∧ ExitCodeError ≠ 10 := by
  decide

end command

/-! ## The driver registry -/

namespace driver

theorem foldl_resetStep_drivers {σ : Type} (ks : List String) (d : Drivers σ) :
    (ks.foldl Drivers.resetStep d).drivers =
      ks.foldl (fun acc k => GoMap.delete k acc) d.drivers := by
  induction ks generalizing d with
  | nil => rfl
  | cons k ks ih => simp [List.foldl_cons, ih, Drivers.resetStep]

theorem foldl_resetStep_active {σ : Type} (ks : List String) (d : Drivers σ) :
    (ks.foldl Drivers.resetStep d).active =
      ks.foldl (fun acc k => GoMap.delete k acc) d.active := by
  induction ks generalizing d with
  | nil => rfl
  | cons k ks ih => simp [List.foldl_cons, ih, Drivers.resetStep]

theorem foldl_resetStep_driverTemplates {σ : Type} (ks : List String) (d : Drivers σ) :
    (ks.foldl Drivers.resetStep d).driverTemplates = d.driverTemplates := by
  induction ks generalizing d with
  | nil => rfl
  | cons k ks ih => simp [List.foldl_cons, ih, Drivers.resetStep]

theorem Reset_drivers {σ : Type} (d : Drivers σ) : d.Reset.drivers = [] := by
  unfold Drivers.Reset
  rw [foldl_resetStep_drivers]
  apply GoMap.foldl_delete_eq_nil
  intro p hp
  exact List.mem_map_of_mem Prod.fst hp

theorem Reset_driverTemplates {σ : Type} (d : Drivers σ) :
    d.Reset.driverTemplates = d.driverTemplates :=
  foldl_resetStep_driverTemplates _ d

theorem Get_snd {σ : Type} (n : String) (d : Drivers σ) :
    (d.Get n).2 = (GoMap.get? n d.drivers).isSome := by
  unfold Drivers.Get
  cases GoMap.get? n d.drivers <;> rfl

theorem GetTask_snd {σ : Type} (n : String) (d : Drivers σ) :
    (d.GetTask n).2 = (GoMap.get? n d.driverTemplates).isSome := by
  unfold Drivers.GetTask
  cases GoMap.get? n d.driverTemplates <;> rfl

theorem GetTask_congr {σ : Type} {d d' : Drivers σ}
    (h : d'.driverTemplates = d.driverTemplates) (tmplID : String) :
    d'.GetTask tmplID = d.GetTask tmplID := by
  unfold Drivers.GetTask
  rw [h]

/-- C9, as the code has it: after `Reset()` the drivers map is empty (`Len()` is
0 and `Get(n)` is absent for every `n`), and a name is active afterwards exactly
when it was active before and was not registered: the loop clears the active
mark of the registered names only. -/
theorem Reset_clears_registered {σ : Type} (d : Drivers σ) :
    d.Reset.Len = 0 ∧
      ∀ n : String, d.Reset.Get n = (none, false) ∧
        d.Reset.IsActive n = (d.IsActive n && !(d.Get n).2) := by
  refine ⟨by simp [Drivers.Len, Reset_drivers], fun n => ⟨?_, ?_⟩⟩
  · simp [Drivers.Get, Reset_drivers, GoMap.get?]
  · rw [Get_snd]
    unfold Drivers.IsActive Drivers.Reset
    rw [foldl_resetStep_active, GoMap.get?_foldl_delete]
    by_cases h : n ∈ GoMap.keys d.drivers
    · have h' := (GoMap.get?_isSome_iff_mem_keys n d.drivers).mpr h
      simp [h, h']
    · have h' := (GoMap.get?_eq_none_iff n d.drivers).mpr h
      simp [h, h']

/-- C9, the claim as stated fails: a name marked active without being
registered stays active across `Reset()`. -/
theorem Reset_keeps_unregistered_active :
    ((Drivers.SetActive "adhoc" (NewDrivers : Drivers Nat)).2).Reset.IsActive "adhoc" = true ∧
      ¬ (∀ (d : Drivers Nat) (n : String), d.Reset.IsActive n = false) := by
  refine ⟨by decide, fun h => ?_⟩
  have := h (Drivers.SetActive "adhoc" (NewDrivers : Drivers Nat)).2 "adhoc"
  revert this
  decide

/-- C10: `Add(name, driver)` returns an error if and only if `name` is empty, or
`driver` is nil, or a driver is already registered under `name`; and after an
`Add` of a driver under `name`, whatever its outcome, a second `Add` with the
same name returns an error. -/
theorem Add_error_iff {σ : Type} (d : Drivers σ) (n : String) (drv : Option (Driver σ)) :
    ((d.Add n drv).1 ≠ none ↔ (n = "" ∨ drv = none ∨ (d.Get n).2 = true)) ∧
      ∀ (x : Driver σ) (y : Option (Driver σ)), ((d.Add n (some x)).2.Add n y).1 ≠ none := by
  constructor
  · rw [Get_snd]
    unfold Drivers.Add
    by_cases hn : n = ""
    · simp [hn]
    · cases drv with
      | none => simp [hn]
      | some x => cases hg : GoMap.get? n d.drivers <;> simp [hn, hg]
  · intro x y
    unfold Drivers.Add
    by_cases hn : n = ""
    · simp [hn]
    · cases hg : GoMap.get? n d.drivers with
      | some z => cases y <;> simp [hn, hg]
      | none => cases y <;> simp [hn, hg, GoMap.get?_set_self]

end driver

end CTS

namespace CTS

namespace driver

theorem I1_iff {σ : Type} (d : Drivers σ) :
    I1 d ↔ ∀ (tmplID taskName : String), GoMap.get? tmplID d.driverTemplates = some taskName →
      (GoMap.get? taskName d.drivers).isSome = true := by
  unfold I1
  constructor
  · intro h tmplID taskName hg
    have := h tmplID
    simp only [Drivers.GetTask, hg, Get_snd] at this
    exact this trivial
  · intro h tmplID
    rw [Get_snd]
    unfold Drivers.GetTask
    cases hg : GoMap.get? tmplID d.driverTemplates with
    | none => simp
    | some taskName =>
      intro _
      exact h tmplID taskName hg

theorem I1_NewDrivers {σ : Type} : I1 (NewDrivers : Drivers σ) := by
  rw [I1_iff]
  intro tmplID taskName hg
  simp [NewDrivers, GoMap.get?] at hg

theorem I1_congr {σ : Type} {d d' : Drivers σ} (hd : d'.drivers = d.drivers)
    (ht : d'.driverTemplates = d.driverTemplates) (h : I1 d) : I1 d' := by
  rw [I1_iff] at h ⊢
  rw [hd, ht]
  exact h

theorem I1_Add {σ : Type} (d : Drivers σ) (n : String) (drv : Option (Driver σ)) (h : I1 d) :
    I1 (d.Add n drv).2 := by
  unfold Drivers.Add
  by_cases hn : n = ""
  · simpa [hn] using h
  · cases drv with
    | none => simpa [hn] using h
    | some x =>
      cases hg : GoMap.get? n d.drivers with
      | some z => simpa [hn, hg] using h
      | none =>
        simp only [hn, if_false]
        rw [I1_iff] at h ⊢
        intro tmplID taskName hb
        simp only [GoMap.get?_foldl_set] at hb
        by_cases hm : tmplID ∈ x.TemplateIDs
        · simp only [hm, if_true, Option.some.injEq] at hb
          subst hb
          simp [GoMap.get?_set_self]
        · simp only [hm, if_false] at hb
          by_cases hk : taskName = n
          · subst hk
            simp [GoMap.get?_set_self]
          · simp only [GoMap.get?_set_ne hk]
            exact h tmplID taskName hb

theorem I1_SetActive {σ : Type} (d : Drivers σ) (n : String) (h : I1 d) :
    I1 (d.SetActive n).2 :=
  I1_congr rfl rfl h

theorem I1_SetInactive {σ : Type} (d : Drivers σ) (n : String) (h : I1 d) :
    I1 (d.SetInactive n).2 := by
  unfold Drivers.SetInactive
  cases GoMap.get? n d.active with
  | none => exact h
  | some u => exact I1_congr rfl rfl h

theorem I1_foldl {σ : Type} (ops : List (Op σ)) (d : Drivers σ)
    (hops : ∀ op ∈ ops, op.removes = false) (h : I1 d) :
    I1 (ops.foldl (fun acc op => op.apply acc) d) := by
  induction ops generalizing d with
  | nil => exact h
  | cons op ops ih =>
    rw [List.foldl_cons]
    apply ih _ (fun o ho => hops o (List.mem_cons_of_mem _ ho))
    have hop := hops op (List.mem_cons_self _ _)
    cases op with
    | Add taskName drv => exact I1_Add d taskName drv h
    | Delete taskName => simp [Op.removes] at hop
    | Reset => simp [Op.removes] at hop
    | SetActive name => exact I1_SetActive d name h
    | SetInactive name => exact I1_SetInactive d name h

theorem Delete_GetTask {σ : Type} (d : Drivers σ) (n tmplID : String) :
    (d.Delete n).2.GetTask tmplID = d.GetTask tmplID := by
  apply GetTask_congr
  unfold Drivers.Delete
  by_cases hn : n = "" <;> simp [hn]

/-- C8, as the code has it: I1 holds in every state reached from `NewDrivers()`
by `Add`, `SetActive` and `SetInactive` calls; `Delete` and `Reset` leave the
template index as it is, so they keep every binding of a driver they remove. -/
theorem I1_without_removal {σ : Type} (ops : List (Op σ))
    (hops : ∀ op ∈ ops, op.removes = false) :
    I1 (reach ops) ∧
      ∀ (d : Drivers σ) (n tmplID : String),
        (d.Delete n).2.GetTask tmplID = d.GetTask tmplID ∧
          d.Reset.GetTask tmplID = d.GetTask tmplID :=
  ⟨I1_foldl ops NewDrivers hops I1_NewDrivers,
    fun d n tmplID => ⟨Delete_GetTask d n tmplID, GetTask_congr (Reset_driverTemplates d) tmplID⟩⟩

/-- C8, witness: a sequence of `Add`, `SetActive` and `SetInactive` calls. -/
theorem I1_without_removal_witness :
    (∀ op ∈ [Op.Add "web" (some webDriver), Op.SetActive "web", Op.SetInactive "web"],
        op.removes = false) ∧
      I1 (reach [Op.Add "web" (some webDriver), Op.SetActive "web", Op.SetInactive "web"]) :=
  ⟨by simp [Op.removes],
    (I1_without_removal
      [Op.Add "web" (some webDriver), Op.SetActive "web", Op.SetInactive "web"]
      (by simp [Op.removes])).1⟩

/-- C8, the claim as stated fails: after `Add("web", d); Delete("web")`, and
after `Add("web", d); Reset()`, the template `tmpl-web` is still bound to `web`
although no driver is registered under `web`. -/
theorem I1_broken_by_removal :
    ((reach [Op.Add "web" (some webDriver), Op.Delete "web"]).GetTask "tmpl-web" = ("web", true) ∧
        ((reach [Op.Add "web" (some webDriver), Op.Delete "web"]).Get "web").2 = false ∧
        ¬ I1 (reach [Op.Add "web" (some webDriver), Op.Delete "web"])) ∧
      ((reach [Op.Add "web" (some webDriver), Op.Reset]).GetTask "tmpl-web" = ("web", true) ∧
        ((reach [Op.Add "web" (some webDriver), Op.Reset]).Get "web").2 = false ∧
        ¬ I1 (reach [Op.Add "web" (some webDriver), Op.Reset])) := by
  refine ⟨⟨by decide, by decide, fun h => ?_⟩, ⟨by decide, by decide, fun h => ?_⟩⟩
  · have := h "tmpl-web"
    revert this
    decide
  · have := h "tmpl-web"
    revert this
    decide

end driver

end CTS

namespace CTS

/-! ## The event store and the retry policy -/

namespace event

theorem NewEvent_ok {taskName : String} (h : taskName ≠ "") (config : Config) :
    NewEvent taskName config =
      .ok { taskID := taskName, providers := config.Providers, services := config.Services,
            source := config.Source, started := false, ended := false, err := none } := by
  simp [NewEvent, h]

theorem Add_ok (e : Event) (h : e.taskID ≠ "") (s : Store) : (s.Add e).1 = none := by
  simp [Store.Add, h]

theorem Read_Add (e : Event) (h : e.taskID ≠ "") (s : Store) :
    (s.Add e).2.Read e.taskID =
      (s.Read e.taskID ++ [e]).drop ((s.Read e.taskID ++ [e]).length - s.limit) := by
  simp [Store.Add, h, Store.Read, GoMap.get?_set_self]

/-- With room for at least one event, the newest event of a task is the one
added last. -/
theorem getLast?_Read_Add (e : Event) (h : e.taskID ≠ "") (s : Store) (hl : 0 < s.limit) :
    ((s.Add e).2.Read e.taskID).getLast? = some e := by
  rw [Read_Add e h, List.getLast?_drop, List.getLast?_concat]
  have : ¬ (s.Read e.taskID ++ [e]).length ≤ (s.Read e.taskID ++ [e]).length - s.limit := by
    simp only [List.length_append, List.length_singleton]
    omega
  rw [if_neg this]

end event

namespace retry

/-- Whatever the attempted action leaves alone, the further attempts leave alone. -/
theorem more_preserves {α β : Type} (g : α → β) (ctx : Context) (f : Context → α → GoError × α)
    (hf : ∀ c a, g (f c a).2 = g a) (desc : String) (k : Nat) (last : String) (a : α) :
    g (Retry.more ctx f desc k last a).2 = g a := by
  induction k generalizing last a with
  | zero => rfl
  | succ k ih =>
    unfold Retry.more
    cases hc : ctx.cancelled with
    | true => rfl
    | false =>
      simp only [Bool.false_eq_true, if_false]
      have h1 := hf ctx a
      rcases hfa : f ctx a with ⟨_ | e, a'⟩
      · rw [hfa] at h1
        exact h1
      · rw [hfa] at h1
        simp only
        rw [ih, h1]

/-- Whatever the attempted action leaves alone, `Do` leaves alone. -/
theorem Do_preserves {α β : Type} (g : α → β) (r : Retry) (ctx : Context)
    (f : Context → α → GoError × α) (hf : ∀ c a, g (f c a).2 = g a) (desc : String) (a : α) :
    g (r.Do ctx f desc a).2 = g a := by
  unfold Retry.Do
  have h1 := hf ctx a
  rcases hfa : f ctx a with ⟨_ | e, a'⟩
  · rw [hfa] at h1
    exact h1
  · rw [hfa] at h1
    simp only
    rw [more_preserves g ctx f hf, h1]

end retry

/-! ## The task execution unit -/

namespace controller

open driver

theorem callRenderTemplate_fst {σ : Type} (d : Driver σ) (ctx : Context) (rw : ReadWrite σ) :
    (callRenderTemplate d ctx rw).1 = (d.RenderTemplate ctx rw.world).1 := rfl

theorem callRenderTemplate_snd {σ : Type} (d : Driver σ) (ctx : Context) (rw : ReadWrite σ) :
    (callRenderTemplate d ctx rw).2 =
      { rw with world := (d.RenderTemplate ctx rw.world).2,
                calls := rw.calls ++ [Call.RenderTemplate d.Task.Name] } := rfl

theorem callApplyTask_store {σ : Type} (d : Driver σ) (ctx : Context) (rw : ReadWrite σ) :
    (callApplyTask d ctx rw).2.store = rw.store := rfl

theorem applyStep_store {σ : Type} (ctx : Context) (d : Driver σ) (retry : Bool)
    (rw : ReadWrite σ) : (applyStep ctx d retry rw).2.store = rw.store := by
  unfold applyStep
  cases retry with
  | false => rfl
  | true =>
    simp only [if_true]
    exact retry.Do_preserves ReadWrite.store _ ctx _ (fun c a => callApplyTask_store d c a) _ rw

theorem storeEvent_store {σ : Type} (ev : event.Event) (err : GoError) (rw : ReadWrite σ) :
    (storeEvent ev err rw).store = (rw.store.Add (ev.End err)).2 := rfl

/-- The body of `checkApply` for an enabled task with a name, past the two
early returns. -/
theorem checkApply_enabled {σ : Type} (ctx : Context) (d : Driver σ) (retry : Bool)
    (rw : ReadWrite σ) (hen : d.Task.IsEnabled = true) (hname : d.Task.Name ≠ "") :
    checkApply ctx d retry rw =
      match callRenderTemplate d ctx rw with
      | ((_, some renderErr), rw1) =>
        ((false, some ("error rendering template for task " ++ d.Task.Name ++ ": " ++ renderErr)),
          { rw1 with store := (rw1.store.Add (finalizedEvent d.Task (some renderErr))).2 })
      | ((rendered, none), rw1) =>
        if rendered then
          match applyStep ctx d retry rw1 with
          | (some applyErr, rw2) =>
            ((false, some ("could not apply changes for task " ++ d.Task.Name ++ ": " ++ applyErr)),
              { rw2 with store := (rw2.store.Add (finalizedEvent d.Task (some applyErr))).2 })
          | (none, rw2) =>
            ((rendered, none),
              { rw2 with store := (rw2.store.Add (finalizedEvent d.Task none)).2 })
        else
          ((rendered, none), rw1) := by
  unfold checkApply
  simp only [hen, Bool.not_true, Bool.false_eq_true, if_false, event.NewEvent_ok hname]
  rfl

/-- C2, as the code has it: for an enabled task whose `RenderTemplate` returns
`(true, nil)`, `checkApply` returns `(true, nil)` when the apply step returns
nil, and `(false, e)` with `e` the apply error under the prefix
`could not apply changes for task <name>: ` when the apply step fails; this
holds for both values of `retry`. -/
theorem checkApply_rendered_result {σ : Type} (ctx : Context) (d : Driver σ) (retry : Bool)
    (rw : ReadWrite σ) (hen : d.Task.IsEnabled = true) (hname : d.Task.Name ≠ "")
    (hr : (d.RenderTemplate ctx rw.world).1 = (true, none)) :
    (checkApply ctx d retry rw).1 =
      match (applyStep ctx d retry (callRenderTemplate d ctx rw).2).1 with
      | none => (true, none)
      | some applyErr =>
        (false, some ("could not apply changes for task " ++ d.Task.Name ++ ": " ++ applyErr)) := by
  rw [checkApply_enabled ctx d retry rw hen hname]
  rw [← callRenderTemplate_fst] at hr
  rcases hc : callRenderTemplate d ctx rw with ⟨⟨rendered, err⟩, rw1⟩
  rw [hc] at hr
  simp only [Prod.mk.injEq] at hr
  obtain ⟨h1, h2⟩ := hr
  subst h1 h2
  simp only [if_true]
  rcases ha : applyStep ctx d retry rw1 with ⟨_ | applyErr, rw2⟩ <;> rfl

/-- C2, witness: an enabled task that renders at once and whose apply succeeds,
run through the retry policy. -/
theorem checkApply_rendered_result_witness :
    webDriver.Task.IsEnabled = true ∧ webDriver.Task.Name ≠ "" ∧
      (webDriver.RenderTemplate ⟨false⟩ emptyReadWrite.world).1 = (true, none) ∧
      (checkApply ⟨false⟩ webDriver true emptyReadWrite).1 = (true, none) :=
  ⟨rfl, by decide, rfl,
    (checkApply_rendered_result ⟨false⟩ webDriver true emptyReadWrite rfl (by decide) rfl).trans
      rfl⟩

/-- C2, the claim as stated fails: the task is enabled and renders at once, its
apply fails, and `checkApply` returns `complete = false`, with and without the
retry policy. -/
theorem checkApply_apply_error_not_complete :
    applyFailDriver.Task.IsEnabled = true ∧
      (applyFailDriver.RenderTemplate ⟨false⟩ emptyReadWrite.world).1 = (true, none) ∧
      (checkApply ⟨false⟩ applyFailDriver false emptyReadWrite).1 =
        (false, some "could not apply changes for task web: apply failed") ∧
      (checkApply ⟨false⟩ applyFailDriver true emptyReadWrite).1.1 = false := by
  decide

/-- C3: for an enabled task whose `RenderTemplate` returns `(true, nil)`, the
store after `checkApply` is the store before it with exactly one `Add`, which
succeeds, of the event of the task finalized with the result of the apply step
(nil when it succeeded, its error when it failed); for both values of `retry`.
Without the retry policy that result is what `ApplyTask` returned, with it what
`retry.Do` on `ApplyTask` returned. -/
theorem checkApply_rendered_stores_event {σ : Type} (ctx : Context) (d : Driver σ)
    (retry : Bool) (rw : ReadWrite σ) (hen : d.Task.IsEnabled = true)
    (hname : d.Task.Name ≠ "") (hr : (d.RenderTemplate ctx rw.world).1 = (true, none)) :
    (checkApply ctx d retry rw).2.store =
        (rw.store.Add (finalizedEvent d.Task
          (applyStep ctx d retry (callRenderTemplate d ctx rw).2).1)).2 ∧
      (rw.store.Add (finalizedEvent d.Task
          (applyStep ctx d retry (callRenderTemplate d ctx rw).2).1)).1 = none ∧
      (applyStep ctx d false (callRenderTemplate d ctx rw).2).1 =
        (d.ApplyTask ctx (d.RenderTemplate ctx rw.world).2).1 ∧
      (applyStep ctx d true (callRenderTemplate d ctx rw).2).1 =
        (rw.retry.Do ctx (callApplyTask d) ("ApplyTask " ++ d.Task.Name)
          (callRenderTemplate d ctx rw).2).1 := by
  refine ⟨?_, event.Add_ok _ hname _, rfl, rfl⟩
  rw [checkApply_enabled ctx d retry rw hen hname]
  rw [← callRenderTemplate_fst] at hr
  have hs : (callRenderTemplate d ctx rw).2.store = rw.store := rfl
  rcases hc : callRenderTemplate d ctx rw with ⟨⟨rendered, err⟩, rw1⟩
  rw [hc] at hr hs
  simp only [Prod.mk.injEq] at hr
  obtain ⟨h1, h2⟩ := hr
  subst h1 h2
  simp only [if_true]
  have hs2 := applyStep_store ctx d retry rw1
  rcases ha : applyStep ctx d retry rw1 with ⟨_ | applyErr, rw2⟩
  · rw [ha] at hs2
    simp only at hs2 hs ⊢
    rw [hs2, hs]
  · rw [ha] at hs2
    simp only at hs2 hs ⊢
    rw [hs2, hs]

/-- C3, witness: an enabled task that renders at once and whose apply fails;
the store, empty before, then holds the one event with the apply error. -/
theorem checkApply_rendered_stores_event_witness :
    applyFailDriver.Task.IsEnabled = true ∧ applyFailDriver.Task.Name ≠ "" ∧
      (applyFailDriver.RenderTemplate ⟨false⟩ emptyReadWrite.world).1 = (true, none) ∧
      (checkApply ⟨false⟩ applyFailDriver false emptyReadWrite).2.store =
        (emptyReadWrite.store.Add (finalizedEvent webTask (some "apply failed"))).2 :=
  ⟨rfl, by decide, rfl,
    (checkApply_rendered_stores_event ⟨false⟩ applyFailDriver false emptyReadWrite
      rfl (by decide) rfl).1.trans rfl⟩

/-- C4: for an enabled task whose `RenderTemplate` returns `(false, nil)`,
`checkApply` returns `(false, nil)`, leaves the store as it was, and the only
driver call it makes is the render: the call log grows by that one entry and
the world is as the render left it. -/
theorem checkApply_not_rendered {σ : Type} (ctx : Context) (d : Driver σ) (retry : Bool)
    (rw : ReadWrite σ) (hen : d.Task.IsEnabled = true) (hname : d.Task.Name ≠ "")
    (hr : (d.RenderTemplate ctx rw.world).1 = (false, none)) :
    (checkApply ctx d retry rw).1 = (false, none) ∧
      (checkApply ctx d retry rw).2.store = rw.store ∧
      (checkApply ctx d retry rw).2.calls = rw.calls ++ [Call.RenderTemplate d.Task.Name] ∧
      (checkApply ctx d retry rw).2.world = (d.RenderTemplate ctx rw.world).2 := by
  rw [checkApply_enabled ctx d retry rw hen hname]
  rw [← callRenderTemplate_fst] at hr
  have hs := callRenderTemplate_snd d ctx rw
  rcases hc : callRenderTemplate d ctx rw with ⟨⟨rendered, err⟩, rw1⟩
  rw [hc] at hr hs
  simp only [Prod.mk.injEq] at hr
  obtain ⟨h1, h2⟩ := hr
  subst h1 h2
  simp only at hs
  subst hs
  simp

/-- C4, witness: a driver whose render is not yet complete. -/
theorem checkApply_not_rendered_witness :
    pendingDriver.Task.IsEnabled = true ∧ pendingDriver.Task.Name ≠ "" ∧
      (pendingDriver.RenderTemplate ⟨false⟩ emptyReadWrite.world).1 = (false, none) ∧
      (checkApply ⟨false⟩ pendingDriver true emptyReadWrite).1 = (false, none) ∧
      (checkApply ⟨false⟩ pendingDriver true emptyReadWrite).2.store = emptyReadWrite.store ∧
      (checkApply ⟨false⟩ pendingDriver true emptyReadWrite).2.calls =
        emptyReadWrite.calls ++ [Call.RenderTemplate "web"] ∧
      (checkApply ⟨false⟩ pendingDriver true emptyReadWrite).2.world = 1 :=
  ⟨rfl, by decide, rfl,
    checkApply_not_rendered ⟨false⟩ pendingDriver true emptyReadWrite rfl (by decide) rfl⟩

/-- The state after `checkApply` for an enabled task whose render fails. -/
theorem checkApply_render_error_state {σ : Type} (ctx : Context) (d : Driver σ) (retry : Bool)
    (rw : ReadWrite σ) (renderErr : String) (hen : d.Task.IsEnabled = true)
    (hname : d.Task.Name ≠ "") (hr : (d.RenderTemplate ctx rw.world).1.2 = some renderErr) :
    checkApply ctx d retry rw =
      ((false, some ("error rendering template for task " ++ d.Task.Name ++ ": " ++ renderErr)),
        { rw with
          world := (d.RenderTemplate ctx rw.world).2
          calls := rw.calls ++ [Call.RenderTemplate d.Task.Name]
          store := (rw.store.Add (finalizedEvent d.Task (some renderErr))).2 }) := by
  rw [checkApply_enabled ctx d retry rw hen hname]
  rw [← callRenderTemplate_fst] at hr
  have hs := callRenderTemplate_snd d ctx rw
  rcases hc : callRenderTemplate d ctx rw with ⟨⟨rendered, err⟩, rw1⟩
  rw [hc] at hr hs
  simp only at hr hs
  subst hr hs
  rfl

/-- C5: for an enabled task whose `RenderTemplate` returns a non-nil error,
`checkApply` returns `(false, e)` where `e` is the render error under the prefix
`error rendering template for task <name>: `; the store afterwards is the store
before with exactly one `Add`, which succeeds, of the event finalized with the
render error; and the only driver call is the render, so `ApplyTask` is not
called. -/
theorem checkApply_render_error {σ : Type} (ctx : Context) (d : Driver σ) (retry : Bool)
    (rw : ReadWrite σ) (renderErr : String) (hen : d.Task.IsEnabled = true)
    (hname : d.Task.Name ≠ "") (hr : (d.RenderTemplate ctx rw.world).1.2 = some renderErr) :
    (checkApply ctx d retry rw).1 =
        (false, some ("error rendering template for task " ++ d.Task.Name ++ ": " ++ renderErr)) ∧
      (checkApply ctx d retry rw).2.store =
        (rw.store.Add (finalizedEvent d.Task (some renderErr))).2 ∧
      (rw.store.Add (finalizedEvent d.Task (some renderErr))).1 = none ∧
      (checkApply ctx d retry rw).2.calls = rw.calls ++ [Call.RenderTemplate d.Task.Name] ∧
      (checkApply ctx d retry rw).2.world = (d.RenderTemplate ctx rw.world).2 := by
  rw [checkApply_render_error_state ctx d retry rw renderErr hen hname hr]
  exact ⟨rfl, rfl, event.Add_ok _ hname _, rfl, rfl⟩

/-- C5, witness: a driver whose render fails. -/
theorem checkApply_render_error_witness :
    renderFailDriver.Task.IsEnabled = true ∧ renderFailDriver.Task.Name ≠ "" ∧
      (renderFailDriver.RenderTemplate ⟨false⟩ emptyReadWrite.world).1.2 = some "render failed" ∧
      (checkApply ⟨false⟩ renderFailDriver false emptyReadWrite).1 =
        (false, some "error rendering template for task web: render failed") ∧
      (checkApply ⟨false⟩ renderFailDriver false emptyReadWrite).2.store =
        (emptyReadWrite.store.Add (finalizedEvent webTask (some "render failed"))).2 ∧
      (emptyReadWrite.store.Add (finalizedEvent webTask (some "render failed"))).1 = none ∧
      (checkApply ⟨false⟩ renderFailDriver false emptyReadWrite).2.calls =
        emptyReadWrite.calls ++ [Call.RenderTemplate "web"] ∧
      (checkApply ⟨false⟩ renderFailDriver false emptyReadWrite).2.world = 1 :=
  ⟨rfl, by decide, rfl,
    checkApply_render_error ⟨false⟩ renderFailDriver false emptyReadWrite
      "render failed" rfl (by decide) rfl⟩

/-- C6, as the code has it: for an enabled task whose `RenderTemplate` returns a
non-nil error, `checkApply` does record an event: in a store with room for at
least one event per task, the newest event of the task afterwards is the event
finalized with the render error. -/
theorem checkApply_render_error_recorded {σ : Type} (ctx : Context) (d : Driver σ)
    (retry : Bool) (rw : ReadWrite σ) (renderErr : String) (hen : d.Task.IsEnabled = true)
    (hname : d.Task.Name ≠ "") (hr : (d.RenderTemplate ctx rw.world).1.2 = some renderErr)
    (hlimit : 0 < rw.store.limit) :
    ((checkApply ctx d retry rw).2.store.Read d.Task.Name).getLast? =
      some (finalizedEvent d.Task (some renderErr)) := by
  rw [checkApply_render_error_state ctx d retry rw renderErr hen hname hr]
  exact event.getLast?_Read_Add (finalizedEvent d.Task (some renderErr)) hname rw.store hlimit

/-- C6, witness: a driver whose render fails, on an empty store of capacity 5. -/
theorem checkApply_render_error_recorded_witness :
    renderFailDriver.Task.IsEnabled = true ∧ renderFailDriver.Task.Name ≠ "" ∧
      (renderFailDriver.RenderTemplate ⟨false⟩ emptyReadWrite.world).1.2 = some "render failed" ∧
      0 < emptyReadWrite.store.limit ∧
      ((checkApply ⟨false⟩ renderFailDriver true emptyReadWrite).2.store.Read "web").getLast? =
        some (finalizedEvent webTask (some "render failed")) :=
  ⟨rfl, by decide, rfl, by decide,
    checkApply_render_error_recorded ⟨false⟩ renderFailDriver true emptyReadWrite
      "render failed" rfl (by decide) rfl (by decide)⟩

/-- C6, the claim as stated fails: the task is enabled, its render returns an
error before any full render, and the store, empty before, holds an event for
the task afterwards. -/
theorem checkApply_render_error_event_stored :
    renderFailDriver.Task.IsEnabled = true ∧
      (renderFailDriver.RenderTemplate ⟨false⟩ emptyReadWrite.world).1.2 = some "render failed" ∧
      emptyReadWrite.store.Read "web" = [] ∧
      (checkApply ⟨false⟩ renderFailDriver false emptyReadWrite).2.store.Read "web" =
        [finalizedEvent webTask (some "render failed")] ∧
      (checkApply ⟨false⟩ renderFailDriver false emptyReadWrite).2.store ≠
        emptyReadWrite.store := by
  decide

/-- C7: for a driver whose task is disabled, and both values of `retry`,
`checkApply` returns `(true, nil)` and changes nothing: the store is as before,
and the call log and the world are as before, so neither `RenderTemplate` nor
`ApplyTask` is called. -/
theorem checkApply_disabled {σ : Type} (ctx : Context) (d : Driver σ) (retry : Bool)
    (rw : ReadWrite σ) (hdis : d.Task.IsEnabled = false) :
    (checkApply ctx d retry rw).1 = (true, none) ∧
      (checkApply ctx d retry rw).2.store = rw.store ∧
      (checkApply ctx d retry rw).2.calls = rw.calls ∧
      (checkApply ctx d retry rw).2.world = rw.world := by
  unfold checkApply
  simp [hdis]

/-- C7, witness: a driver for a disabled task. -/
theorem checkApply_disabled_witness :
    disabledDriver.Task.IsEnabled = false ∧
      (checkApply ⟨false⟩ disabledDriver true emptyReadWrite).1 = (true, none) ∧
      (checkApply ⟨false⟩ disabledDriver true emptyReadWrite).2.store = emptyReadWrite.store ∧
      (checkApply ⟨false⟩ disabledDriver true emptyReadWrite).2.calls = emptyReadWrite.calls ∧
      (checkApply ⟨false⟩ disabledDriver true emptyReadWrite).2.world = emptyReadWrite.world :=
  ⟨rfl, checkApply_disabled ⟨false⟩ disabledDriver true emptyReadWrite rfl⟩

end controller

end CTS

namespace CTS

/-! ## The driver registry: lookups after `Add`, `Delete`, `SetInactive` -/

namespace driver

theorem Get_congr {σ : Type} {d d' : Drivers σ} {n : String}
    (h : GoMap.get? n d'.drivers = GoMap.get? n d.drivers) : d'.Get n = d.Get n := by
  unfold Drivers.Get
  rw [h]

theorem Add_ok_state {σ : Type} (d : Drivers σ) (n : String) (x : Driver σ)
    (hok : (d.Add n (some x)).1 = none) :
    (d.Add n (some x)).2 =
      { d with
        drivers := GoMap.set n x d.drivers
        driverTemplates :=
          x.TemplateIDs.foldl (fun m id => GoMap.set id n m) d.driverTemplates } := by
  unfold Drivers.Add at hok ⊢
  by_cases hn : n = ""
  · simp [hn] at hok
  · cases hg : GoMap.get? n d.drivers with
    | some z => simp [hn, hg] at hok
    | none => simp [hn]

theorem Add_ok_of_free {σ : Type} (d : Drivers σ) (n : String) (x : Driver σ) (hn : n ≠ "")
    (hfree : (d.Get n).2 = false) : (d.Add n (some x)).1 = none := by
  rw [Get_snd] at hfree
  unfold Drivers.Add
  cases hg : GoMap.get? n d.drivers with
  | some z => simp [hg] at hfree
  | none => simp [hn]

theorem Delete_ok_state {σ : Type} (d : Drivers σ) (n : String) (hn : n ≠ "") :
    d.Delete n = (none, { d with drivers := GoMap.delete n d.drivers }) := by
  simp [Drivers.Delete, hn]

/-- C11: for a non-empty name `n` not yet registered and a non-nil driver `x`,
`Add(n, x)` succeeds and `Get(n)` then returns `(x, true)`; a subsequent
`Delete(n)` succeeds and `Get(n)` then returns `(nil, false)`. -/
theorem Add_Get_Delete_round_trip {σ : Type} (d : Drivers σ) (n : String) (x : Driver σ)
    (hn : n ≠ "") (hfree : (d.Get n).2 = false) :
    (d.Add n (some x)).1 = none ∧
      (d.Add n (some x)).2.Get n = (some x, true) ∧
      ((d.Add n (some x)).2.Delete n).1 = none ∧
      ((d.Add n (some x)).2.Delete n).2.Get n = (none, false) := by
  have hok := Add_ok_of_free d n x hn hfree
  refine ⟨hok, ?_, ?_, ?_⟩
  · rw [Add_ok_state d n x hok]
    simp [Drivers.Get, GoMap.get?_set_self]
  · rw [Delete_ok_state _ n hn]
  · rw [Delete_ok_state _ n hn]
    simp [Drivers.Get, GoMap.get?_delete_self]

/-- C11, witness: `web` on the empty registry. -/
theorem Add_Get_Delete_round_trip_witness :
    "web" ≠ "" ∧ ((NewDrivers : Drivers Nat).Get "web").2 = false ∧
      ((NewDrivers : Drivers Nat).Add "web" (some webDriver)).1 = none ∧
      ((NewDrivers : Drivers Nat).Add "web" (some webDriver)).2.Get "web" =
        (some webDriver, true) ∧
      (((NewDrivers : Drivers Nat).Add "web" (some webDriver)).2.Delete "web").1 = none ∧
      (((NewDrivers : Drivers Nat).Add "web" (some webDriver)).2.Delete "web").2.Get "web" =
        (none, false) :=
  ⟨by decide, rfl, Add_Get_Delete_round_trip NewDrivers "web" webDriver (by decide) rfl⟩

/-- C12: after a successful `Add(name, x)`, `GetTask(id)` returns `(name, true)`
for every id among `x.TemplateIDs()`, whatever it was bound to before, and is
unchanged for every other id; and `Get(m)` is unchanged for every other name
`m`, so a driver whose template binding was overwritten stays registered. -/
theorem Add_binds_templates {σ : Type} (d : Drivers σ) (n : String) (x : Driver σ)
    (hok : (d.Add n (some x)).1 = none) :
    (∀ tmplID : String, (d.Add n (some x)).2.GetTask tmplID =
        if tmplID ∈ x.TemplateIDs then (n, true) else d.GetTask tmplID) ∧
      (∀ m : String, (d.Add n (some x)).2.Get m =
        if m = n then (some x, true) else d.Get m) := by
  rw [Add_ok_state d n x hok]
  constructor
  · intro tmplID
    unfold Drivers.GetTask
    simp only [GoMap.get?_foldl_set]
    by_cases hm : tmplID ∈ x.TemplateIDs <;> simp [hm]
  · intro m
    by_cases hm : m = n
    · subst hm
      simp [Drivers.Get, GoMap.get?_set_self]
    · simp only [hm, if_false]
      exact Get_congr (GoMap.get?_set_ne hm x d.drivers)

/-- C12, witness: `db` claims the template `tmpl-web` already bound to `web`;
the binding moves to `db`, `tmpl-db` is bound too, and `web` stays registered. -/
theorem Add_binds_templates_witness :
    (((NewDrivers : Drivers Nat).Add "web" (some webDriver)).2.Add "db" (some dbDriver)).1 =
        none ∧
      ((NewDrivers : Drivers Nat).Add "web" (some webDriver)).2.GetTask "tmpl-web" =
        ("web", true) ∧
      (((NewDrivers : Drivers Nat).Add "web" (some webDriver)).2.Add "db"
        (some dbDriver)).2.GetTask "tmpl-web" = ("db", true) ∧
      (((NewDrivers : Drivers Nat).Add "web" (some webDriver)).2.Add "db"
        (some dbDriver)).2.Get "web" = (some webDriver, true) :=
  ⟨rfl, rfl,
    ((Add_binds_templates ((NewDrivers : Drivers Nat).Add "web" (some webDriver)).2 "db"
      dbDriver rfl).1 "tmpl-web").trans rfl,
    ((Add_binds_templates ((NewDrivers : Drivers Nat).Add "web" (some webDriver)).2 "db"
      dbDriver rfl).2 "web").trans rfl⟩

/-- C13: `SetInactive(n)` returns whether `IsActive(n)` held right before the
call; afterwards `IsActive(n)` is false and `IsActive(m)` is as before for every
other name `m`.  So `SetActive(n)` followed by `SetInactive(n)` returns true and
leaves `IsActive(n)` false. -/
theorem SetInactive_spec {σ : Type} (d : Drivers σ) (n : String) :
    (d.SetInactive n).1 = d.IsActive n ∧
      (∀ m : String, (d.SetInactive n).2.IsActive m = (d.IsActive m && decide (m ≠ n))) ∧
      (d.SetActive n).1 = true ∧
      (d.SetActive n).2.IsActive n = true ∧
      ((d.SetActive n).2.SetInactive n).1 = true ∧
      ((d.SetActive n).2.SetInactive n).2.IsActive n = false := by
  have key : ∀ (e : Drivers σ) (m : String),
      (e.SetInactive n).2.IsActive m = (e.IsActive m && decide (m ≠ n)) := by
    intro e m
    unfold Drivers.SetInactive Drivers.IsActive
    cases hg : GoMap.get? n e.active with
    | none =>
      by_cases hm : m = n
      · subst hm
        simp [hg]
      · simp [hm]
    | some u =>
      by_cases hm : m = n
      · subst hm
        simp [GoMap.get?_delete_self]
      · simp [hm, GoMap.get?_delete_ne hm]
  have hact : (d.SetActive n).2.IsActive n = true := by
    simp [Drivers.SetActive, Drivers.IsActive, GoMap.get?_set_self]
  have hret : ∀ e : Drivers σ, (e.SetInactive n).1 = e.IsActive n := by
    intro e
    unfold Drivers.SetInactive Drivers.IsActive
    cases GoMap.get? n e.active <;> rfl
  refine ⟨hret d, key d, rfl, hact, ?_, ?_⟩
  · rw [hret, hact]
  · rw [key]
    simp

/-- C14: `Delete(name)` returns an error if and only if `name` is empty.  With a
non-empty name, `Get(name)` is absent afterwards and `Get(m)` is as before for
every other `m`; the template index and the active set are never touched, so
`GetTask` and `IsActive` answer as before; with the empty name the registry is
unchanged. -/
theorem Delete_spec {σ : Type} (d : Drivers σ) (n : String) :
    ((d.Delete n).1 ≠ none ↔ n = "") ∧
      (∀ m : String, (d.Delete n).2.Get m =
        if n ≠ "" ∧ m = n then (none, false) else d.Get m) ∧
      (d.Delete n).2.driverTemplates = d.driverTemplates ∧
      (d.Delete n).2.active = d.active ∧
      (∀ tmplID : String, (d.Delete n).2.GetTask tmplID = d.GetTask tmplID) ∧
      (∀ m : String, (d.Delete n).2.IsActive m = d.IsActive m) ∧
      (d.Delete "").2 = d := by
  by_cases hn : n = ""
  · subst hn
    simp [Drivers.Delete]
  · rw [Delete_ok_state d n hn]
    refine ⟨by simp [hn], ?_, rfl, rfl, fun _ => rfl, fun _ => rfl, by simp [Drivers.Delete]⟩
    intro m
    by_cases hm : m = n
    · subst hm
      simp [hn, Drivers.Get, GoMap.get?_delete_self]
    · simp only [hm, and_false, if_false]
      exact Get_congr (GoMap.get?_delete_ne hm d.drivers)

/-- The stale binding `Delete` leaves behind: after `Add("web", d); Delete("web")`
the template of the deleted driver still maps to `web`. -/
theorem Delete_keeps_binding :
    (((NewDrivers : Drivers Nat).Add "web" (some webDriver)).2.Delete "web").2.GetTask
      "tmpl-web" = ("web", true) := by
  decide

end driver

end CTS

namespace CTS

/-! ## Go maps: keys -/

namespace GoMap

theorem keys_delete {β : Type} (k : String) (m : List (String × β)) :
    keys (delete k m) = (keys m).filter (fun n => decide (n ≠ k)) := by
  induction m with
  | nil => rfl
  | cons p m ih =>
    obtain ⟨k', v⟩ := p
    by_cases h : k' = k
    · rw [delete_cons, if_pos h, ih]
      simp [keys, h]
    · rw [delete_cons, if_neg h]
      simp only [keys, List.map_cons] at ih ⊢
      rw [ih]
      simp [h]

theorem keys_set {β : Type} (k : String) (v : β) (m : List (String × β)) :
    keys (set k v m) = k :: (keys m).filter (fun n => decide (n ≠ k)) := by
  rw [← keys_delete]
  rfl

theorem nodup_keys_set {β : Type} (k : String) (v : β) (m : List (String × β))
    (h : (keys m).Nodup) : (keys (set k v m)).Nodup := by
  rw [keys_set]
  refine List.nodup_cons.mpr ⟨?_, h.filter _⟩
  simp

theorem mem_keys_set {β : Type} (n k : String) (v : β) (m : List (String × β)) :
    n ∈ keys (set k v m) ↔ n = k ∨ n ∈ keys m := by
  rw [keys_set]
  by_cases h : n = k <;> simp [h]

theorem nodup_keys_foldl_set {β : Type} (l acc : List (String × β)) (h : (keys acc).Nodup) :
    (keys (l.foldl (fun copy kv => set kv.1 kv.2 copy) acc)).Nodup := by
  induction l generalizing acc with
  | nil => exact h
  | cons p l ih => exact ih _ (nodup_keys_set p.1 p.2 acc h)

theorem mem_keys_foldl_set {β : Type} (n : String) (l acc : List (String × β)) :
    n ∈ keys (l.foldl (fun copy kv => set kv.1 kv.2 copy) acc) ↔ n ∈ keys l ∨ n ∈ keys acc := by
  induction l generalizing acc with
  | nil => simp [keys]
  | cons p l ih =>
    rw [List.foldl_cons, ih, mem_keys_set]
    simp only [keys, List.map_cons, List.mem_cons]
    tauto

end GoMap

namespace driver

theorem nodup_keys_Map {σ : Type} (d : Drivers σ) : (GoMap.keys d.Map).Nodup :=
  GoMap.nodup_keys_foldl_set d.drivers [] List.nodup_nil

theorem mem_keys_Map {σ : Type} (d : Drivers σ) (n : String) :
    n ∈ GoMap.keys d.Map ↔ (d.Get n).2 = true := by
  rw [Get_snd, GoMap.get?_isSome_iff_mem_keys]
  unfold Drivers.Map
  rw [GoMap.mem_keys_foldl_set]
  simp [GoMap.keys]

end driver

/-! ## The event store after several additions -/

namespace event

theorem Add_limit (e : Event) (s : Store) : (s.Add e).2.limit = s.limit := by
  unfold Store.Add
  by_cases h : e.taskID = "" <;> simp [h]

theorem Read_Add_ne (e : Event) (s : Store) {n : String} (h : n ≠ e.taskID) :
    (s.Add e).2.Read n = s.Read n := by
  unfold Store.Add
  by_cases he : e.taskID = ""
  · simp [he]
  · simp [he, Store.Read, GoMap.get?_set_ne h]

theorem Read_foldl_Add_of_not_mem (es : List Event) (s : Store) (n : String)
    (h : n ∉ es.map (fun e => e.taskID)) :
    (es.foldl (fun st e => (st.Add e).2) s).Read n = s.Read n := by
  induction es generalizing s with
  | nil => rfl
  | cons e es ih =>
    simp only [List.map_cons, List.mem_cons, not_or] at h
    rw [List.foldl_cons, ih _ h.2, Read_Add_ne e s h.1]

theorem limit_foldl_Add (es : List Event) (s : Store) :
    (es.foldl (fun st e => (st.Add e).2) s).limit = s.limit := by
  induction es generalizing s with
  | nil => rfl
  | cons e es ih => rw [List.foldl_cons, ih, Add_limit]

/-- Adding events of distinct tasks to a store that holds nothing for them
leaves each task with exactly its own event. -/
theorem Read_foldl_Add_of_mem (es : List Event) (s : Store) (e : Event) (he : e ∈ es)
    (hid : ∀ x ∈ es, x.taskID ≠ "") (hnodup : (es.map (fun x => x.taskID)).Nodup)
    (hempty : s.Read e.taskID = []) (hl : 0 < s.limit) :
    (es.foldl (fun st x => (st.Add x).2) s).Read e.taskID = [e] := by
  induction es generalizing s with
  | nil => exact absurd he (List.not_mem_nil _)
  | cons x es ih =>
    simp only [List.map_cons, List.nodup_cons] at hnodup
    rw [List.foldl_cons]
    rcases List.mem_cons.mp he with hx | hx
    · subst hx
      rw [Read_foldl_Add_of_not_mem es _ _ hnodup.1, Read_Add e (hid e (List.mem_cons_self _ _)),
        hempty]
      simp only [List.nil_append, List.length_singleton]
      have : 1 - s.limit = 0 := by omega
      rw [this]
      rfl
    · have hne : e.taskID ≠ x.taskID := by
        intro heq
        exact hnodup.1 (heq ▸ List.mem_map_of_mem (fun y => y.taskID) hx)
      apply ih _ hx (fun y hy => hid y (List.mem_cons_of_mem _ hy)) hnodup.2
      · rw [Read_Add_ne x s hne, hempty]
      · rw [Add_limit]
        exact hl

end event

end CTS

namespace CTS

namespace controller

open driver

/-! ## `checkApply` and the context -/

/-- C19, as the code has it: `checkApply` never looks at the context, it only
hands it to the driver.  Entered with a cancelled context it leaves the store
alone when the task is disabled or has no name, or when `RenderTemplate` returns
`(false, nil)`; when `RenderTemplate` returns an error it adds the event
finalized with that error, and when it returns `(true, nil)` it adds the event
finalized with the result of the apply step. -/
theorem checkApply_cancelled_store {σ : Type} (ctx : Context) (d : Driver σ) (retry : Bool)
    (rw : ReadWrite σ) (hc : ctx.cancelled = true) :
    ctx.cancelled = true ∧
      (checkApply ctx d retry rw).2.store =
        if d.Task.IsEnabled = true ∧ d.Task.Name ≠ "" then
          match (d.RenderTemplate ctx rw.world).1 with
          | (_, some renderErr) => (rw.store.Add (finalizedEvent d.Task (some renderErr))).2
          | (true, none) =>
            (rw.store.Add (finalizedEvent d.Task
              (applyStep ctx d retry (callRenderTemplate d ctx rw).2).1)).2
          | (false, none) => rw.store
        else rw.store := by
  refine ⟨hc, ?_⟩
  by_cases hen : d.Task.IsEnabled = true
  · by_cases hname : d.Task.Name = ""
    · simp [checkApply, hen, hname, event.NewEvent]
    · rw [checkApply_enabled ctx d retry rw hen hname]
      simp only [hen, hname, ne_eq, not_false_eq_true, and_self, if_true]
      rw [← callRenderTemplate_fst]
      have hs : (callRenderTemplate d ctx rw).2.store = rw.store := rfl
      rcases hcr : callRenderTemplate d ctx rw with ⟨⟨rendered, err⟩, rw1⟩
      rw [hcr] at hs
      simp only at hs
      cases err with
      | some renderErr => simp [hs]
      | none =>
        cases rendered with
        | false => simp [hs]
        | true =>
          have hs2 := applyStep_store ctx d retry rw1
          rcases ha : applyStep ctx d retry rw1 with ⟨_ | applyErr, rw2⟩
          · rw [ha] at hs2
            simp only at hs2
            simp only [if_true]
            rw [ha]
            simp [hs2, hs]
          · rw [ha] at hs2
            simp only at hs2
            simp only [if_true]
            rw [ha]
            simp [hs2, hs]
  · have hdis : d.Task.IsEnabled = false := by simpa using hen
    simp [checkApply, hdis]

/-- C19, witness: a driver that honours cancellation, entered with a cancelled
context; the event with the cancellation error is added. -/
theorem checkApply_cancelled_store_witness :
    (⟨true⟩ : Context).cancelled = true ∧
      (checkApply ⟨true⟩ cancelAwareDriver true emptyReadWrite).2.store =
        (emptyReadWrite.store.Add (finalizedEvent webTask (some "context canceled"))).2 :=
  ⟨rfl, (checkApply_cancelled_store ⟨true⟩ cancelAwareDriver true emptyReadWrite rfl).2.trans
    (by decide)⟩

/-- C19, the claim as stated fails: entered with a cancelled context, for a
driver that answers the cancelled context with the cancellation error, the
store, empty before, holds an event for the task afterwards; likewise for a
driver that ignores the context. -/
theorem checkApply_cancelled_event_stored :
    (⟨true⟩ : Context).cancelled = true ∧
      emptyReadWrite.store.Read "web" = [] ∧
      (checkApply ⟨true⟩ cancelAwareDriver false emptyReadWrite).2.store.Read "web" =
        [finalizedEvent webTask (some "context canceled")] ∧
      (checkApply ⟨true⟩ cancelAwareDriver true emptyReadWrite).2.store.Read "web" =
        [finalizedEvent webTask (some "context canceled")] ∧
      (checkApply ⟨true⟩ webDriver false emptyReadWrite).2.store.Read "web" =
        [finalizedEvent webTask none] := by
  decide

/-! ## `Once` -/

theorem onceRange_append {σ : Type} (ctx : Context) (pre post : List (String × Driver σ))
    (s s1 : OnceState σ) (h : onceRange ctx pre s = (none, s1)) :
    onceRange ctx (pre ++ post) s = onceRange ctx post s1 := by
  induction pre generalizing s with
  | nil =>
    simp only [onceRange, Prod.mk.injEq, true_and] at h
    subst h
    rfl
  | cons kd pre ih =>
    obtain ⟨k, d⟩ := kd
    rw [List.cons_append, onceRange]
    rw [onceRange] at h
    by_cases hk : (!((GoMap.get? k s.completed).getD false)) = true
    · simp only [hk, if_true] at h ⊢
      rcases hca : checkApply ctx d false s.rw with ⟨⟨complete, _ | err⟩, rw'⟩
      · rw [hca] at h
        simp only at h ⊢
        exact ih _ h
      · rw [hca] at h
        simp at h
    · simp only [hk] at h ⊢
      exact ih _ h

/-- The outer loop of `Once`, unfolded once. -/
theorem onceLoop_eq {σ : Type} (ctx : Context) (driversCopy : List (String × Driver σ))
    (wakes : List Wake) (s : OnceState σ) :
    onceLoop ctx driversCopy wakes s =
      match onceRange ctx driversCopy { s with done := true } with
      | (some err, s1) => some (some err, wakes, s1)
      | (none, s1) =>
        if s1.done then
          some (none, wakes, s1)
        else
          match wakes with
          | [] => none
          | Wake.watcher (some err) :: rest => some (some err, rest, s1)
          | Wake.watcher none :: rest => onceLoop ctx driversCopy rest s1
          | Wake.ctxDone :: rest => some (ctx.cancel.Err, rest, s1) := by
  cases wakes with
  | nil => simp only [onceLoop, onceIteration]
  | cons w rest =>
    cases w with
    | watcher err =>
      cases err with
      | none => simp only [onceLoop, onceIteration]
      | some e => simp only [onceLoop, onceIteration]
    | ctxDone => simp only [onceLoop, onceIteration]

/-- C15: `Once` is fail-fast.  In any iteration of its outer loop, if the tasks
visited so far went through without error and `checkApply` returns an error for
the next task that is not completed, `Once` returns that very error: the
wake-ups are untouched (no wait on the watcher), `checkApply` is invoked for no
further task, and the controller is left as that `checkApply` left it, with
every event added so far in its store. -/
theorem Once_fail_fast {σ : Type} (ctx : Context) (pre post : List (String × Driver σ))
    (taskName : String) (d : Driver σ) (wakes : List Wake) (s s1 : OnceState σ)
    (complete : Bool) (err : String) (rw2 : ReadWrite σ)
    (hpre : onceRange ctx pre { s with done := true } = (none, s1))
    (htodo : (GoMap.get? taskName s1.completed).getD false = false)
    (herr : checkApply ctx d false s1.rw = ((complete, some err), rw2)) :
    onceLoop ctx (pre ++ (taskName, d) :: post) wakes s =
      some (some err, wakes, { s1 with invoked := s1.invoked ++ [taskName], rw := rw2 }) := by
  rw [onceLoop_eq, onceRange_append ctx pre _ _ s1 hpre, onceRange]
  simp [htodo, herr]

/-- C15, witness: `web` applies, `db` fails to apply, `cache` comes last.
`Once` returns the error of `db` without consuming a wake-up; `checkApply` was
invoked for `web` and `db` only, and the store keeps the events of both. -/
theorem Once_fail_fast_witness :
    ∃ final : OnceState Nat,
      Once ⟨false⟩ [Wake.watcher none]
          (readWriteOf [webDriver, dbFailDriver, cacheDriver]) =
        some (some "could not apply changes for task db: apply failed", [Wake.watcher none],
          final) ∧
      final.invoked = ["web", "db"] ∧
      final.rw.store.Read "web" = [finalizedEvent webTask none] ∧
      final.rw.store.Read "db" = [finalizedEvent dbTask (some "apply failed")] ∧
      final.rw.store.Read "cache" = [] :=
  ⟨_, Once_fail_fast ⟨false⟩ [("web", webDriver)] [("cache", cacheDriver)] "db" dbFailDriver
      [Wake.watcher none]
      { completed := [], done := true, invoked := [],
        rw := readWriteOf [webDriver, dbFailDriver, cacheDriver] }
      _ _ "could not apply changes for task db: apply failed" _ rfl rfl rfl,
    by decide, by decide, by decide, by decide⟩

end controller

end CTS

namespace CTS

namespace controller

open driver

/-- An enabled task that renders at once and applies without error, run without
the retry policy: `checkApply` returns `(true, nil)` and adds the event of the
task with a nil error. -/
theorem checkApply_success {σ : Type} (ctx : Context) (d : Driver σ) (rw : ReadWrite σ)
    (hen : d.Task.IsEnabled = true) (hname : d.Task.Name ≠ "")
    (hr : (d.RenderTemplate ctx rw.world).1 = (true, none))
    (ha : (d.ApplyTask ctx (d.RenderTemplate ctx rw.world).2).1 = none) :
    (checkApply ctx d false rw).1 = (true, none) ∧
      (checkApply ctx d false rw).2.store = (rw.store.Add (finalizedEvent d.Task none)).2 := by
  rw [checkApply_enabled ctx d false rw hen hname]
  have h1 : callRenderTemplate d ctx rw =
      ((true, none), { rw with world := (d.RenderTemplate ctx rw.world).2,
                               calls := rw.calls ++ [Call.RenderTemplate d.Task.Name] }) := by
    unfold callRenderTemplate
    rcases hx : d.RenderTemplate ctx rw.world with ⟨r, w⟩
    rw [hx] at hr
    simp only at hr
    subst hr
    rfl
  rw [h1]
  simp only [if_true]
  have h2 : (applyStep ctx d false
      { rw with world := (d.RenderTemplate ctx rw.world).2,
                calls := rw.calls ++ [Call.RenderTemplate d.Task.Name] }).1 = none := by
    simp only [applyStep, Bool.false_eq_true, if_false, callApplyTask]
    exact ha
  have h3 := applyStep_store ctx d false
      { rw with world := (d.RenderTemplate ctx rw.world).2,
                calls := rw.calls ++ [Call.RenderTemplate d.Task.Name] }
  rcases hx : applyStep ctx d false
      { rw with world := (d.RenderTemplate ctx rw.world).2,
                calls := rw.calls ++ [Call.RenderTemplate d.Task.Name] } with ⟨e, rw2⟩
  rw [hx] at h2 h3
  simp only at h2 h3
  subst h2
  simp [h3]

theorem checkApply_disabled_eq {σ : Type} (ctx : Context) (d : Driver σ) (retry : Bool)
    (rw : ReadWrite σ) (hdis : d.Task.IsEnabled = false) :
    checkApply ctx d retry rw = ((true, none), rw) := by
  simp [checkApply, hdis]

theorem successEvents_cons_enabled {σ : Type} (k : String) (d : Driver σ)
    (l : List (String × Driver σ)) (hen : d.Task.IsEnabled = true) :
    successEvents ((k, d) :: l) = finalizedEvent d.Task none :: successEvents l := by
  simp [successEvents, hen]

theorem successEvents_cons_disabled {σ : Type} (k : String) (d : Driver σ)
    (l : List (String × Driver σ)) (hdis : d.Task.IsEnabled = false) :
    successEvents ((k, d) :: l) = successEvents l := by
  simp [successEvents, hdis]

/-- A pass of `Once` over tasks none of which is completed yet, all of which go
through: every task is visited once, `done` is kept, and the store gains the
events of the enabled tasks. -/
theorem onceRange_success {σ : Type} (ctx : Context) (l : List (String × Driver σ))
    (s : OnceState σ) (hnodup : (GoMap.keys l).Nodup)
    (htodo : ∀ k ∈ GoMap.keys l, (GoMap.get? k s.completed).getD false = false)
    (hname : ∀ kd ∈ l, kd.2.Task.IsEnabled = true → kd.2.Task.Name ≠ "")
    (hrun : rendersAndApplies ctx l s.rw) :
    ∃ s', onceRange ctx l s = (none, s') ∧ s'.done = s.done ∧
      s'.invoked = s.invoked ++ GoMap.keys l ∧
      s'.rw.store = (successEvents l).foldl (fun st e => (st.Add e).2) s.rw.store := by
  induction l generalizing s with
  | nil => exact ⟨s, rfl, rfl, by simp [GoMap.keys], rfl⟩
  | cons kd l ih =>
    obtain ⟨k, d⟩ := kd
    simp only [GoMap.keys, List.map_cons, List.nodup_cons] at hnodup
    have hk := htodo k (by simp [GoMap.keys])
    obtain ⟨hd, hrest⟩ := hrun
    have hres : ∃ rw', checkApply ctx d false s.rw = ((true, none), rw') ∧
        rw' = (checkApply ctx d false s.rw).2 ∧
        rw'.store = (successEvents [(k, d)]).foldl (fun st e => (st.Add e).2) s.rw.store := by
      by_cases hen : d.Task.IsEnabled = true
      · have hn := hname (k, d) (List.mem_cons_self _ _) hen
        obtain ⟨h1, h2⟩ := checkApply_success ctx d s.rw hen hn (hd hen).1 (hd hen).2
        refine ⟨(checkApply ctx d false s.rw).2, ?_, rfl, ?_⟩
        · rw [← h1]
        · rw [h2]
          simp [successEvents, hen]
      · have hdis : d.Task.IsEnabled = false := by simpa using hen
        refine ⟨s.rw, checkApply_disabled_eq ctx d false s.rw hdis, ?_, ?_⟩
        · rw [checkApply_disabled_eq ctx d false s.rw hdis]
        · simp [successEvents, hdis]
    obtain ⟨rw', hca, hrw', hstore⟩ := hres
    rw [onceRange]
    simp only [hk, Bool.not_false, if_true, hca]
    have := ih
      { completed := GoMap.set k true s.completed
        done := if (!true && s.done) = true then false else s.done
        invoked := s.invoked ++ [k]
        rw := rw' }
      hnodup.2
      (by
        intro k' hk'
        have hne : k' ≠ k := fun e => hnodup.1 (e ▸ hk')
        simp only [GoMap.get?_set_ne hne]
        exact htodo k' (by simp only [GoMap.keys, List.map_cons]; exact List.mem_cons_of_mem _ hk'))
      (fun kd hkd => hname kd (List.mem_cons_of_mem _ hkd))
      (by rw [hrw']; exact hrest)
    obtain ⟨s', h1, h2, h3, h4⟩ := this
    refine ⟨s', h1, ?_, ?_, ?_⟩
    · rw [h2]
      simp
    · rw [h3]
      simp [GoMap.keys]
    · rw [h4, hstore]
      have : successEvents ((k, d) :: l) = successEvents [(k, d)] ++ successEvents l := by
        simp [successEvents, List.filter_cons]
        split <;> simp
      rw [this, List.foldl_append]

/-- C16: if, in the run `Once` makes over the snapshot, the render of every
enabled driver returns `(true, nil)` and its apply returns nil (and the enabled
tasks have a name), then `Once` returns nil after a single pass: no wake-up is
consumed, `checkApply` is invoked once for every task of the snapshot, and the
store has gained one event with a nil error per enabled task.  Starting from an
empty store with room for an event, with distinct names for the enabled tasks,
the store then holds for every enabled task exactly that one event, and nothing
for any other name. -/
theorem Once_single_pass {σ : Type} (ctx : Context) (wakes : List Wake) (rw : ReadWrite σ)
    (hname : ∀ kd ∈ rw.drivers.Map, kd.2.Task.IsEnabled = true → kd.2.Task.Name ≠ "")
    (hrun : rendersAndApplies ctx rw.drivers.Map rw) :
    ∃ final : OnceState σ,
      Once ctx wakes rw = some (none, wakes, final) ∧
      final.invoked = GoMap.keys rw.drivers.Map ∧
      final.rw.store =
        (successEvents rw.drivers.Map).foldl (fun st e => (st.Add e).2) rw.store ∧
      (rw.store.events = [] → 0 < rw.store.limit →
        ((successEvents rw.drivers.Map).map (fun e => e.taskID)).Nodup →
        (∀ kd ∈ rw.drivers.Map, kd.2.Task.IsEnabled = true →
          final.rw.store.Read kd.2.Task.Name = [finalizedEvent kd.2.Task none]) ∧
        (∀ n : String, n ∉ (successEvents rw.drivers.Map).map (fun e => e.taskID) →
          final.rw.store.Read n = [])) := by
  obtain ⟨s', h1, h2, h3, h4⟩ := onceRange_success ctx rw.drivers.Map
    { completed := [], done := true, invoked := [], rw := rw }
    (nodup_keys_Map rw.drivers) (by intro k _; rfl) hname hrun
  simp only at h2 h3 h4
  refine ⟨s', ?_, by simpa using h3, h4, ?_⟩
  · unfold Once
    rw [onceLoop_eq]
    simp only [h1, h2, if_true]
  · intro hempty hlimit hnodup
    have hread : ∀ n : String, rw.store.Read n = [] := by
      intro n
      simp [event.Store.Read, hempty, GoMap.get?]
    constructor
    · intro kd hkd hen
      rw [h4]
      have hmem : finalizedEvent kd.2.Task none ∈ successEvents rw.drivers.Map := by
        unfold successEvents
        exact List.mem_map.mpr ⟨kd, List.mem_filter.mpr ⟨hkd, by simpa using hen⟩, rfl⟩
      have hid : ∀ x ∈ successEvents rw.drivers.Map, x.taskID ≠ "" := by
        intro x hx
        unfold successEvents at hx
        obtain ⟨kd', hkd', rfl⟩ := List.mem_map.mp hx
        obtain ⟨hm, he⟩ := List.mem_filter.mp hkd'
        exact hname kd' hm (by simpa using he)
      exact event.Read_foldl_Add_of_mem _ rw.store (finalizedEvent kd.2.Task none) hmem hid hnodup
        (hread _) hlimit
    · intro n hn
      rw [h4, event.Read_foldl_Add_of_not_mem _ rw.store n hn]
      exact hread n

/-- C16, witness: one driver that renders at once and applies without error
gives exactly one event, with a nil error, and `Once` returns nil without
consuming the wake-up at hand. -/
theorem Once_single_pass_witness :
    ∃ final : OnceState Nat,
      Once ⟨false⟩ [Wake.watcher (some "watcher failed")] (readWriteOf [webDriver]) =
        some (none, [Wake.watcher (some "watcher failed")], final) ∧
      final.invoked = ["web"] ∧
      final.rw.store.Read "web" = [finalizedEvent webTask none] ∧
      final.rw.store.Read "db" = [] := by
  obtain ⟨final, h1, h2, _, h4⟩ :=
    Once_single_pass ⟨false⟩ [Wake.watcher (some "watcher failed")] (readWriteOf [webDriver])
      (by decide)
      (by
        show rendersAndApplies _ [("web", webDriver)] _
        exact ⟨fun _ => ⟨rfl, rfl⟩, trivial⟩)
  obtain ⟨h5, h6⟩ := h4 rfl (by decide) (by decide)
  have hmem : ("web", webDriver) ∈ (readWriteOf [webDriver]).drivers.Map := by
    show ("web", webDriver) ∈ [("web", webDriver)]
    exact List.mem_cons_self _ _
  exact ⟨final, h1, h2, h5 ("web", webDriver) hmem rfl, h6 "db" (by decide)⟩

end controller

end CTS

namespace CTS

namespace controller

open driver

/-! ## `runTasks` -/

theorem perm_cons_eraseIdx {α : Type} (l : List α) (i : Nat) (x : α) (h : l[i]? = some x) :
    List.Perm (x :: l.eraseIdx i) l := by
  induction l generalizing i with
  | nil => simp at h
  | cons a l ih =>
    cases i with
    | zero =>
      simp only [List.getElem?_cons_zero, Option.some.injEq] at h
      subst h
      exact List.Perm.refl _
    | succ i =>
      simp only [List.getElem?_cons_succ] at h
      simp only [List.eraseIdx_cons_succ]
      exact (List.Perm.swap a x _).trans ((ih i h).cons a)

theorem lt_length_of_getElem? {α : Type} (l : List α) (i : Nat) (x : α) (h : l[i]? = some x) :
    i < l.length := by
  by_contra hlt
  have := List.getElem?_eq_none (Nat.le_of_not_lt hlt)
  rw [this] at h
  exact Option.noConfusion h

theorem dispatch_eq {σ : Type} (l : List (String × Driver σ)) (t : Tick σ) :
    dispatch l t =
      { t with
        wg := t.wg + (l.filter (fun kv => !t.rw.drivers.IsActive kv.1)).length
        pending := t.pending ++ l.filter (fun kv => !t.rw.drivers.IsActive kv.1) } := by
  induction l generalizing t with
  | nil => simp [dispatch]
  | cons kd l ih =>
    obtain ⟨k, d⟩ := kd
    rw [dispatch, dispatchOne]
    cases h : t.rw.drivers.IsActive k with
    | true =>
      simp only [if_true]
      rw [ih]
      simp [h]
    | false =>
      simp only [Bool.false_eq_true, if_false]
      rw [ih]
      simp [h, Nat.add_assoc, Nat.add_comm 1]

/-- The workers `runTasks` launches: one for every task of the snapshot that is
not active. -/
theorem runTasks_eq {σ : Type} (ctx : Context) (rw : ReadWrite σ) :
    runTasks ctx rw =
      { rw := rw
        pending := rw.drivers.Map.filter (fun kv => !rw.drivers.IsActive kv.1)
        running := []
        wg := (rw.drivers.Map.filter (fun kv => !rw.drivers.IsActive kv.1)).length
        errCh := []
        closed := false
        invoked := [] } := by
  unfold runTasks Tick.enter
  rw [dispatch_eq]
  simp

theorem invokeCheckApply_eq {σ : Type} (ctx : Context) (n : String) (d : Driver σ)
    (retry : Bool) (t : Tick σ) :
    invokeCheckApply ctx n d retry t =
      ((checkApply ctx d retry t.rw).1,
        { t with
          rw := (checkApply ctx d retry t.rw).2
          invoked := t.invoked ++ [{ taskName := n, retry := retry }] }) := by
  unfold invokeCheckApply
  rcases checkApply ctx d retry t.rw with ⟨result, rw'⟩
  rfl

/-- The step of a worker that calls `checkApply`: the call is
`checkApply ctx d true` on the controller as it is, and it is what the log of
invocations records. -/
theorem Tick.step_start {σ : Type} (ctx : Context) (t : Tick σ) (i : Nat) (n : String)
    (d : Driver σ) (hp : t.pending[i]? = some (n, d)) :
    Tick.step ctx (TickStep.start i) t =
      some { t with
        pending := t.pending.eraseIdx i
        running := t.running ++ [(n, (checkApply ctx d true t.rw).1)]
        rw := (checkApply ctx d true t.rw).2
        invoked := t.invoked ++ [{ taskName := n, retry := true }] } := by
  simp only [Tick.step, hp, invokeCheckApply_eq]

/-- The step of a worker that returns from `checkApply` calls nothing: the log
of invocations and the registry, the store, the world and the driver calls of
the controller are as before.  -/
theorem Tick.step_finish {σ : Type} (ctx : Context) (t t' : Tick σ) (j : Nat)
    (h : Tick.step ctx (TickStep.finish j) t = some t') :
    t'.invoked = t.invoked ∧ t'.rw.drivers = t.rw.drivers ∧ t'.rw.store = t.rw.store ∧
      t'.rw.world = t.rw.world ∧ t'.rw.calls = t.rw.calls ∧ t'.pending = t.pending ∧
      t'.running = t.running.eraseIdx j ∧ t'.wg = t.wg - 1 ∧ t'.closed = t.closed := by
  simp only [Tick.step] at h
  rcases hr : t.running[j]? with _ | ⟨n, result⟩
  · rw [hr] at h
    exact Option.noConfusion h
  · rw [hr] at h
    simp only [Option.some.injEq] at h
    subst h
    unfold workerReturn
    refine ⟨rfl, ?_, ?_, ?_, ?_, rfl, rfl, rfl, rfl⟩ <;>
      (simp only
       cases t.rw.taskNotify with
       | none => rfl
       | some names => cases result.1 <;> rfl)

/-- The step of the closing goroutine only closes the channel. -/
theorem Tick.step_close {σ : Type} (ctx : Context) (t t' : Tick σ)
    (h : Tick.step ctx TickStep.close t = some t') :
    t.wg = 0 ∧ t' = { t with closed := true } := by
  simp only [Tick.step] at h
  by_cases hc : t.wg = 0 ∧ t.closed = false
  · rw [if_pos hc] at h
    simp only [Option.some.injEq] at h
    exact ⟨hc.1, h.symm⟩
  · rw [if_neg hc] at h
    exact Option.noConfusion h

theorem map_fst_eraseIdx {α β : Type} (l : List (α × β)) (i : Nat) :
    (l.eraseIdx i).map Prod.fst = (l.map Prod.fst).eraseIdx i := by
  rw [List.eraseIdx_eq_take_drop_succ, List.eraseIdx_eq_take_drop_succ]
  simp [List.map_take, List.map_drop]

theorem Tick.step_inv {σ : Type} (ctx : Context) (names : List String) (a : TickStep)
    (t t' : Tick σ) (h : Tick.step ctx a t = some t') (hinv : Tick.Inv names t) :
    Tick.Inv names t' := by
  obtain ⟨hwg, hperm, hretry, hclosed⟩ := hinv
  cases a with
  | start i =>
    rcases hp : t.pending[i]? with _ | ⟨n, d⟩
    · simp only [Tick.step, hp] at h
      exact Option.noConfusion h
    · rw [Tick.step_start ctx t i n d hp] at h
      simp only [Option.some.injEq] at h
      subst h
      have hlt := lt_length_of_getElem? _ _ _ hp
      refine ⟨?_, ?_, ?_, ?_⟩
      · simp only [List.length_append, List.length_singleton,
          List.length_eraseIdx_of_lt hlt]
        omega
      · have hp' : (t.pending.map Prod.fst)[i]? = some n := by
          rw [List.getElem?_map, hp]
          rfl
        have h1 := perm_cons_eraseIdx (t.pending.map Prod.fst) i n hp'
        simp only [List.map_append, List.map_cons, List.map_nil, List.append_assoc,
          List.singleton_append, map_fst_eraseIdx]
        exact (List.Perm.append_left _ h1).trans hperm
      · intro inv hinv
        rcases List.mem_append.mp hinv with hm | hm
        · exact hretry inv hm
        · simp only [List.mem_singleton] at hm
          subst hm
          rfl
      · intro hc
        have := (hclosed hc).1
        rw [this] at hp
        simp at hp
  | finish j =>
    obtain ⟨w5, _, _, _, _, w1, w2, w3, w4⟩ := Tick.step_finish ctx t t' j h
    have hj : j < t.running.length := by
      simp only [Tick.step] at h
      rcases hr : t.running[j]? with _ | ⟨n, result⟩
      · rw [hr] at h
        exact Option.noConfusion h
      · exact lt_length_of_getElem? _ _ _ hr
    refine ⟨?_, ?_, ?_, ?_⟩
    · rw [w1, w2, w3, List.length_eraseIdx_of_lt hj]
      omega
    · rw [w1, w5]
      exact hperm
    · rw [w5]
      exact hretry
    · rw [w4]
      intro hc
      have := (hclosed hc).2
      rw [this] at hj
      simp at hj
  | close =>
    obtain ⟨h0, h1⟩ := Tick.step_close ctx t t' h
    subst h1
    refine ⟨hwg, hperm, hretry, fun _ => ?_⟩
    show t.pending = [] ∧ t.running = []
    constructor
    · exact List.length_eq_zero.mp (by omega)
    · exact List.length_eq_zero.mp (by omega)

theorem Tick.run_inv {σ : Type} (ctx : Context) (names : List String) (sched : List TickStep)
    (t t' : Tick σ) (h : Tick.run ctx sched t = some t') (hinv : Tick.Inv names t) :
    Tick.Inv names t' := by
  induction sched generalizing t with
  | nil =>
    simp only [Tick.run, Option.some.injEq] at h
    subst h
    exact hinv
  | cons a sched ih =>
    simp only [Tick.run] at h
    rcases hs : Tick.step ctx a t with _ | t1
    · rw [hs] at h
      exact Option.noConfusion h
    · rw [hs] at h
      exact ih t1 h (Tick.step_inv ctx names a t t1 hs hinv)

theorem runTasks_inv {σ : Type} (ctx : Context) (rw : ReadWrite σ) :
    Tick.Inv (GoMap.keys (rw.drivers.Map.filter (fun kv => !rw.drivers.IsActive kv.1)))
      (runTasks ctx rw) := by
  rw [runTasks_eq]
  refine ⟨by simp, ?_, by simp, by simp⟩
  simp only [List.map_nil, List.nil_append, GoMap.keys]
  exact List.Perm.refl _

theorem nodup_launched {σ : Type} (rw : ReadWrite σ) :
    (GoMap.keys (rw.drivers.Map.filter (fun kv => !rw.drivers.IsActive kv.1))).Nodup := by
  have hsub : List.Sublist
      (GoMap.keys (rw.drivers.Map.filter (fun kv => !rw.drivers.IsActive kv.1)))
      (GoMap.keys rw.drivers.Map) :=
    List.Sublist.map _ (List.filter_sublist _)
  exact hsub.nodup (nodup_keys_Map rw.drivers)

theorem mem_launched {σ : Type} (rw : ReadWrite σ) (n : String) :
    n ∈ GoMap.keys (rw.drivers.Map.filter (fun kv => !rw.drivers.IsActive kv.1)) ↔
      (rw.drivers.Get n).2 = true ∧ rw.drivers.IsActive n = false := by
  rw [← mem_keys_Map]
  simp only [GoMap.keys, List.mem_map, List.mem_filter]
  constructor
  · rintro ⟨kd, ⟨hm, ha⟩, rfl⟩
    exact ⟨⟨kd, hm, rfl⟩, by simpa using ha⟩
  · rintro ⟨⟨kd, hm, rfl⟩, ha⟩
    exact ⟨kd, ⟨hm, by simpa using ha⟩, rfl⟩

theorem worker_eq {σ : Type} (ctx : Context) (n : String) (d : Driver σ) (t : Tick σ) :
    worker ctx n d t =
      workerReturn n (checkApply ctx d true t.rw).1
        { t with
          rw := (checkApply ctx d true t.rw).2
          invoked := t.invoked ++ [{ taskName := n, retry := true }] } := by
  unfold worker
  rw [invokeCheckApply_eq]

theorem worker_fields {σ : Type} (ctx : Context) (n : String) (d : Driver σ) (t : Tick σ) :
    (worker ctx n d t).pending = t.pending ∧ (worker ctx n d t).running = t.running ∧
      (worker ctx n d t).wg = t.wg - 1 ∧ (worker ctx n d t).closed = t.closed ∧
      (worker ctx n d t).invoked = t.invoked ++ [{ taskName := n, retry := true }] := by
  rw [worker_eq]
  exact ⟨rfl, rfl, rfl, rfl, rfl⟩

theorem worker_pending_comm {σ : Type} (ctx : Context) (n : String) (d : Driver σ) (t : Tick σ)
    (l : List (String × Driver σ)) :
    { worker ctx n d t with pending := l } = worker ctx n d { t with pending := l } := by
  rw [worker_eq, worker_eq]
  rfl

theorem Tick.run_sequential {σ : Type} (ctx : Context) (l : List (String × Driver σ))
    (t : Tick σ) (hp : t.pending = l) (hr : t.running = []) (hc : t.closed = false)
    (hwg : t.wg = l.length) :
    Tick.run ctx (sequentialSchedule l.length) t = some (Tick.finish ctx t) := by
  induction l generalizing t with
  | nil =>
    simp only [List.length_nil, sequentialSchedule, Tick.run, Tick.step]
    simp only [List.length_nil] at hwg
    simp only [hwg, hc, and_self, if_true, Tick.finish, hp, Tick.workAll]
  | cons kd l ih =>
    obtain ⟨n, d⟩ := kd
    have hp0 : t.pending[0]? = some (n, d) := by rw [hp]; simp
    simp only [List.length_cons, sequentialSchedule, Tick.run]
    rw [Tick.step_start ctx t 0 n d hp0]
    simp only [Tick.step, hp, hr, List.nil_append, List.getElem?_cons_zero,
      List.eraseIdx_cons_zero]
    have hw : workerReturn n (checkApply ctx d true t.rw).1
        { t with pending := l, running := [], rw := (checkApply ctx d true t.rw).2,
                 invoked := t.invoked ++ [{ taskName := n, retry := true }] } =
        worker ctx n d { t with pending := l, running := [] } := by
      rw [worker_eq]
    rw [hw]
    obtain ⟨w1, w2, w3, w4, w5⟩ := worker_fields ctx n d { t with pending := l, running := [] }
    simp only at w1 w2 w3 w4 w5
    rw [ih _ w1 w2 (by rw [w4]; exact hc) (by rw [w3, hwg]; simp)]
    have e1 : Tick.finish ctx (worker ctx n d { t with pending := l, running := [] }) =
        Tick.finish ctx t := by
      unfold Tick.finish
      rw [w1, hp, worker_pending_comm]
      simp only [Tick.workAll, hr]
    rw [e1]

end controller

end CTS

namespace CTS

namespace controller

open driver

/-- C17: in a tick, whatever the schedule of the goroutines, the step of a
worker that starts is the call `checkApply ctx d true` on the controller, for
the driver `d` the dispatch loop took from the registry, and that call is what
the log of invocations records; the steps of a worker that returns and of the
closing goroutine call nothing.  So `checkApply` is invoked with `retry` set
only, at most once per task, and only for tasks of the snapshot that are not
active at dispatch; once `errCh` is closed no worker is left that has not
started or not run to its end, and every task of the snapshot that was not
active has been invoked.  The schedule that runs the workers one after the
other does close the channel. -/
theorem runTasks_invocations {σ : Type} (ctx : Context) (rw : ReadWrite σ)
    (sched : List TickStep) (t : Tick σ)
    (h : Tick.run ctx sched (runTasks ctx rw) = some t) :
    runTasks ctx rw =
        { rw := rw
          pending := rw.drivers.Map.filter (fun kv => !rw.drivers.IsActive kv.1)
          running := []
          wg := (rw.drivers.Map.filter (fun kv => !rw.drivers.IsActive kv.1)).length
          errCh := []
          closed := false
          invoked := [] } ∧
      (∀ (u : Tick σ) (i : Nat) (n : String) (d : Driver σ), u.pending[i]? = some (n, d) →
        Tick.step ctx (TickStep.start i) u =
          some { u with
            pending := u.pending.eraseIdx i
            running := u.running ++ [(n, (checkApply ctx d true u.rw).1)]
            rw := (checkApply ctx d true u.rw).2
            invoked := u.invoked ++ [{ taskName := n, retry := true }] }) ∧
      (∀ (u u' : Tick σ) (j : Nat), Tick.step ctx (TickStep.finish j) u = some u' →
        u'.invoked = u.invoked ∧ u'.rw.drivers = u.rw.drivers ∧ u'.rw.store = u.rw.store ∧
          u'.rw.world = u.rw.world ∧ u'.rw.calls = u.rw.calls) ∧
      (∀ u u' : Tick σ, Tick.step ctx TickStep.close u = some u' →
        u'.invoked = u.invoked ∧ u'.rw = u.rw) ∧
      (∀ inv ∈ t.invoked, inv.retry = true ∧ (rw.drivers.Get inv.taskName).2 = true ∧
        rw.drivers.IsActive inv.taskName = false) ∧
      (t.invoked.map (fun inv => inv.taskName)).Nodup ∧
      (t.closed = true →
        t.pending = [] ∧ t.running = [] ∧
          ∀ n : String, (rw.drivers.Get n).2 = true → rw.drivers.IsActive n = false →
            { taskName := n, retry := true } ∈ t.invoked) ∧
      Tick.run ctx (sequentialSchedule (runTasks ctx rw).pending.length) (runTasks ctx rw) =
        some (Tick.finish ctx (runTasks ctx rw)) ∧
      (Tick.finish ctx (runTasks ctx rw)).closed = true := by
  obtain ⟨_, hperm, hretry, hclosed⟩ := Tick.run_inv ctx _ sched _ t h (runTasks_inv ctx rw)
  have hnodup := (List.Perm.nodup_iff hperm).mpr (nodup_launched rw)
  refine ⟨runTasks_eq ctx rw, fun u i n d hp => Tick.step_start ctx u i n d hp, ?_, ?_, ?_,
    List.Nodup.of_append_left hnodup, ?_, ?_, rfl⟩
  · intro u u' j hs
    obtain ⟨h1, h2, h3, h4, h5, _⟩ := Tick.step_finish ctx u u' j hs
    exact ⟨h1, h2, h3, h4, h5⟩
  · intro u u' hs
    obtain ⟨_, h1⟩ := Tick.step_close ctx u u' hs
    subst h1
    exact ⟨rfl, rfl⟩
  · intro inv hinv
    have hm : inv.taskName ∈
        t.invoked.map (fun inv => inv.taskName) ++ t.pending.map Prod.fst :=
      List.mem_append_left _ (List.mem_map_of_mem (fun inv => inv.taskName) hinv)
    obtain ⟨h1, h2⟩ := (mem_launched rw inv.taskName).mp ((List.Perm.mem_iff hperm).mp hm)
    exact ⟨hretry inv hinv, h1, h2⟩
  · intro hc
    obtain ⟨hp, hr⟩ := hclosed hc
    refine ⟨hp, hr, ?_⟩
    intro n hreg hact
    have hm := (List.Perm.mem_iff hperm).mpr ((mem_launched rw n).mpr ⟨hreg, hact⟩)
    rw [hp] at hm
    simp only [List.map_nil, List.append_nil, List.mem_map] at hm
    obtain ⟨inv, hinv, hname⟩ := hm
    have hre := hretry inv hinv
    have : inv = { taskName := n, retry := true } := by
      cases inv
      simp only at hname hre
      subst hname hre
      rfl
    rw [← this]
    exact hinv
  · have h0 := runTasks_eq ctx rw
    exact Tick.run_sequential ctx _ (runTasks ctx rw) rfl (by rw [h0]) (by rw [h0])
      (by rw [h0])

/-- C17, witness: `web`, `db` and `cache` are registered and `db` is active.
The worker of `cache` starts first, then that of `web`; both finish and the
channel is closed: `checkApply` was invoked for `cache` and `web`, with `retry`
set, and not for `db`, and the drivers of `cache` and `web` were called to
render and to apply. -/
theorem runTasks_invocations_witness :
    ∃ t : Tick Nat,
      Tick.run ⟨false⟩
          [TickStep.start 1, TickStep.start 0, TickStep.finish 1, TickStep.finish 0,
            TickStep.close]
          (runTasks ⟨false⟩ dbActiveReadWrite) = some t ∧
      t.invoked = [{ taskName := "cache", retry := true }, { taskName := "web", retry := true }] ∧
      t.rw.calls = [Call.RenderTemplate "cache", Call.ApplyTask "cache",
        Call.RenderTemplate "web", Call.ApplyTask "web"] ∧
      t.closed = true ∧
      (t.invoked.map (fun inv => inv.taskName)).Nodup :=
  ⟨_, rfl, rfl, rfl, rfl,
    (runTasks_invocations ⟨false⟩ dbActiveReadWrite
      [TickStep.start 1, TickStep.start 0, TickStep.finish 1, TickStep.finish 0, TickStep.close]
      _ rfl).2.2.2.2.2.1⟩
/-! ## `Run` -/

theorem runLoop_watcher_error {σ : Type} (ctx : Context) (n : Nat) (err : String)
    (rest : List Wake) (ticks : Nat) (logged : List String) (rw : ReadWrite σ) :
    ∃ r, runLoop ctx (List.replicate n (Wake.watcher none) ++ Wake.watcher (some err) :: rest)
        ticks logged rw = some r ∧ r.err = some err ∧ r.ticks = ticks + n := by
  induction n generalizing ticks logged rw with
  | zero => exact ⟨_, rfl, rfl, rfl⟩
  | succ n ih =>
    simp only [List.replicate_succ, List.cons_append, runLoop]
    obtain ⟨r, h1, h2, h3⟩ := ih (ticks + 1)
      (logged ++ (Tick.finish ctx (runTasks ctx rw)).errCh) (Tick.finish ctx (runTasks ctx rw)).rw
    exact ⟨r, h1, h2, by omega⟩

theorem runLoop_ctxDone {σ : Type} (ctx : Context) (n : Nat) (rest : List Wake) (ticks : Nat)
    (logged : List String) (rw : ReadWrite σ) :
    ∃ r, runLoop ctx (List.replicate n (Wake.watcher none) ++ Wake.ctxDone :: rest)
        ticks logged rw = some r ∧ r.err = some "context canceled" ∧ r.ticks = ticks + n := by
  induction n generalizing ticks logged rw with
  | zero => exact ⟨_, rfl, rfl, rfl⟩
  | succ n ih =>
    simp only [List.replicate_succ, List.cons_append, runLoop]
    obtain ⟨r, h1, h2, h3⟩ := ih (ticks + 1)
      (logged ++ (Tick.finish ctx (runTasks ctx rw)).errCh) (Tick.finish ctx (runTasks ctx rw)).rw
    exact ⟨r, h1, h2, by omega⟩

theorem runLoop_blocked {σ : Type} (ctx : Context) (n : Nat) (ticks : Nat)
    (logged : List String) (rw : ReadWrite σ) :
    runLoop ctx (List.replicate n (Wake.watcher none)) ticks logged rw = none := by
  induction n generalizing ticks logged rw with
  | zero => rfl
  | succ n ih =>
    simp only [List.replicate_succ, runLoop]
    exact ih _ _ _

theorem runLoop_some {σ : Type} (ctx : Context) (wakes : List Wake) (ticks : Nat)
    (logged : List String) (rw : ReadWrite σ) (r : RunResult σ)
    (h : runLoop ctx wakes ticks logged rw = some r) :
    ∃ (n : Nat) (rest : List Wake), r.ticks = ticks + n ∧
      ((∃ err : String, r.err = some err ∧
          wakes = List.replicate n (Wake.watcher none) ++ Wake.watcher (some err) :: rest) ∨
        (r.err = some "context canceled" ∧
          wakes = List.replicate n (Wake.watcher none) ++ Wake.ctxDone :: rest)) := by
  induction wakes generalizing ticks logged rw with
  | nil => simp [runLoop] at h
  | cons w wakes ih =>
    cases w with
    | ctxDone =>
      simp only [runLoop, Option.some.injEq] at h
      subst h
      exact ⟨0, wakes, rfl, Or.inr ⟨rfl, rfl⟩⟩
    | watcher e =>
      cases e with
      | some err =>
        simp only [runLoop, Option.some.injEq] at h
        subst h
        exact ⟨0, wakes, rfl, Or.inl ⟨err, rfl, rfl⟩⟩
      | none =>
        simp only [runLoop] at h
        obtain ⟨n, rest, h1, h2⟩ := ih _ _ _ h
        refine ⟨n + 1, rest, by omega, ?_⟩
        rcases h2 with ⟨err, h3, h4⟩ | ⟨h3, h4⟩
        · exact Or.inl ⟨err, h3, by rw [h4]; rfl⟩
        · exact Or.inr ⟨h3, by rw [h4]; rfl⟩

/-- C18: `Run` returns only from its `select`.  Whenever it returns, the error
is non-nil and is either the error the watcher delivered or the error of the
cancelled context, and every wake-up before it was a nil from the watcher,
followed by a tick; whatever errors the tasks of those ticks return, they are
only logged.  Conversely, after any number of nil wake-ups `Run` returns on an
error from the watcher or on the context being done, with one tick made per nil
wake-up, and as long as only nil wake-ups arrive it does not return. -/
theorem Run_returns_only_from_select {σ : Type} (ctx : Context) (rw : ReadWrite σ) :
    (∀ (wakes : List Wake) (r : RunResult σ), Run ctx wakes rw = some r →
        r.err ≠ none ∧
          ∃ rest : List Wake,
            (∃ err : String, r.err = some err ∧
              wakes = List.replicate r.ticks (Wake.watcher none) ++
                Wake.watcher (some err) :: rest) ∨
            (r.err = ctx.cancel.Err ∧
              wakes = List.replicate r.ticks (Wake.watcher none) ++ Wake.ctxDone :: rest)) ∧
      (∀ (n : Nat) (err : String) (rest : List Wake),
        ∃ r, Run ctx (List.replicate n (Wake.watcher none) ++ Wake.watcher (some err) :: rest)
          rw = some r ∧ r.err = some err ∧ r.ticks = n) ∧
      (∀ (n : Nat) (rest : List Wake),
        ∃ r, Run ctx (List.replicate n (Wake.watcher none) ++ Wake.ctxDone :: rest) rw =
          some r ∧ r.err = some "context canceled" ∧ r.ticks = n) ∧
      (∀ n : Nat, Run ctx (List.replicate n (Wake.watcher none)) rw = none) := by
  refine ⟨?_, ?_, ?_, ?_⟩
  · intro wakes r h
    obtain ⟨n, rest, h1, h2⟩ := runLoop_some ctx wakes 0 [] _ r h
    have hn : r.ticks = n := by omega
    subst hn
    rcases h2 with ⟨err, h3, h4⟩ | ⟨h3, h4⟩
    · exact ⟨by rw [h3]; simp, rest, Or.inl ⟨err, h3, h4⟩⟩
    · exact ⟨by rw [h3]; simp, rest, Or.inr ⟨h3, h4⟩⟩
  · intro n err rest
    obtain ⟨r, h1, h2, h3⟩ := runLoop_watcher_error ctx n err rest 0 []
      { rw with world := rw.drivers.SetBufferPeriod rw.world }
    exact ⟨r, h1, h2, by omega⟩
  · intro n rest
    obtain ⟨r, h1, h2, h3⟩ := runLoop_ctxDone ctx n rest 0 []
      { rw with world := rw.drivers.SetBufferPeriod rw.world }
    exact ⟨r, h1, h2, by omega⟩
  · intro n
    exact runLoop_blocked ctx n 0 [] _

/-- C18, witness: the apply of `db` fails in every tick.  Over three nil
wake-ups `Run` makes three ticks and logs the three errors; it returns at the
fourth wake-up, the context being done, with the error of the context. -/
theorem Run_returns_only_from_select_witness :
    ∃ r : RunResult Nat,
      Run ⟨false⟩ [Wake.watcher none, Wake.watcher none, Wake.watcher none, Wake.ctxDone]
          (readWriteOf [webDriver, dbFailDriver, cacheDriver]) = some r ∧
      r.err = some "context canceled" ∧ r.ticks = 3 ∧ r.logged.length = 3 ∧
      (r.rw.store.Read "db").length = 3 ∧ (r.rw.store.Read "web").length = 3 := by
  obtain ⟨r, h1, h2, h3⟩ :=
    (Run_returns_only_from_select ⟨false⟩
      (readWriteOf [webDriver, dbFailDriver, cacheDriver])).2.2.1 3 []
  refine ⟨r, h1, h2, h3, ?_⟩
  have h4 : Run ⟨false⟩
      [Wake.watcher none, Wake.watcher none, Wake.watcher none, Wake.ctxDone]
      (readWriteOf [webDriver, dbFailDriver, cacheDriver]) = some r := h1
  have h5 : Run ⟨false⟩
      [Wake.watcher none, Wake.watcher none, Wake.watcher none, Wake.ctxDone]
      (readWriteOf [webDriver, dbFailDriver, cacheDriver]) = some _ := rfl
  rw [h5] at h4
  simp only [Option.some.injEq] at h4
  subst h4
  decide

end controller

end CTS

namespace CTS

namespace driver

/-- C22: `Add` is atomic on failure.  Whenever `Add(name, driver)` returns an
error, the registry is exactly as before: the drivers map, the template index
and the active set are unchanged, so `Get`, `GetTask`, `Len` and `IsActive`
answer as before; a rejected duplicate neither replaces the registered driver
nor binds a template id of the rejected one. -/
theorem Add_error_unchanged {σ : Type} (d : Drivers σ) (n : String) (drv : Option (Driver σ))
    (herr : (d.Add n drv).1 ≠ none) :
    (d.Add n drv).2 = d ∧
      (d.Add n drv).2.drivers = d.drivers ∧
      (d.Add n drv).2.driverTemplates = d.driverTemplates ∧
      (d.Add n drv).2.active = d.active ∧
      (∀ m : String, (d.Add n drv).2.Get m = d.Get m) ∧
      (∀ tmplID : String, (d.Add n drv).2.GetTask tmplID = d.GetTask tmplID) ∧
      (∀ m : String, (d.Add n drv).2.IsActive m = d.IsActive m) ∧
      (d.Add n drv).2.Len = d.Len := by
  have key : (d.Add n drv).2 = d := by
    unfold Drivers.Add at herr ⊢
    by_cases hn : n = ""
    · simp [hn]
    · cases drv with
      | none => simp [hn]
      | some x =>
        cases hg : GoMap.get? n d.drivers with
        | some z => simp [hn]
        | none => simp [hn, hg] at herr
  rw [key]
  exact ⟨rfl, rfl, rfl, rfl, fun _ => rfl, fun _ => rfl, fun _ => rfl, rfl⟩

/-- C22, witness: `web` is registered; `Add("web", dbDriver)` is rejected, `web`
keeps its driver, and the templates of the rejected driver are not bound:
`tmpl-web` still maps to `web` and `tmpl-db` is absent. -/
theorem Add_error_unchanged_witness :
    (((NewDrivers : Drivers Nat).Add "web" (some webDriver)).2.Add "web" (some dbDriver)).1 ≠
        none ∧
      (((NewDrivers : Drivers Nat).Add "web" (some webDriver)).2.Add "web" (some dbDriver)).2.Get
        "web" = (some webDriver, true) ∧
      (((NewDrivers : Drivers Nat).Add "web" (some webDriver)).2.Add "web"
        (some dbDriver)).2.GetTask "tmpl-web" = ("web", true) ∧
      (((NewDrivers : Drivers Nat).Add "web" (some webDriver)).2.Add "web"
        (some dbDriver)).2.GetTask "tmpl-db" = ("", false) :=
  ⟨by decide,
    ((Add_error_unchanged ((NewDrivers : Drivers Nat).Add "web" (some webDriver)).2 "web"
      (some dbDriver) (by decide)).2.2.2.2.1 "web").trans rfl,
    ((Add_error_unchanged ((NewDrivers : Drivers Nat).Add "web" (some webDriver)).2 "web"
      (some dbDriver) (by decide)).2.2.2.2.2.1 "tmpl-web").trans rfl,
    ((Add_error_unchanged ((NewDrivers : Drivers Nat).Add "web" (some webDriver)).2 "web"
      (some dbDriver) (by decide)).2.2.2.2.2.1 "tmpl-db").trans rfl⟩

end driver

/-! ## The effect of one `checkApply` of `Once` on the calls and the store -/

namespace event

theorem length_Read_Add_le (e : Event) (s : Store) (n : String) :
    ((s.Add e).2.Read n).length ≤ (s.Read n).length + 1 := by
  by_cases he : e.taskID = ""
  · simp [Store.Add, he]
  · by_cases hn : n = e.taskID
    · subst hn
      rw [Read_Add e he]
      simp only [List.length_drop, List.length_append, List.length_singleton]
      omega
    · rw [Read_Add_ne e s hn]
      omega

end event

namespace controller

open driver

theorem count_ApplyTask_append_render {σ : Type} (rw : ReadWrite σ) (n m : String) :
    (rw.calls ++ [Call.RenderTemplate m]).count (Call.ApplyTask n) =
      rw.calls.count (Call.ApplyTask n) := by
  simp [List.count_append, List.count_singleton]

theorem count_ApplyTask_append_apply {σ : Type} (rw : ReadWrite σ) (n m : String) :
    (rw.calls ++ [Call.ApplyTask m]).count (Call.ApplyTask n) =
      rw.calls.count (Call.ApplyTask n) + if m = n then 1 else 0 := by
  by_cases h : m = n
  · subst h
    simp [List.count_append, List.count_singleton]
  · have h' : ¬ n = m := fun e => h e.symm
    simp [List.count_append, List.count_singleton, h, h']

/-- What one `checkApply` without the retry policy does to the `ApplyTask` calls
and to the events in the store: nothing for the tasks of other names; at most
one call and one event more for its own task; and neither a call nor an event
when it returns `(false, nil)`. -/
theorem checkApply_false_effect {σ : Type} (ctx : Context) (d : Driver σ) (rw : ReadWrite σ) :
    (∀ n : String, n ≠ d.Task.Name →
        applyCount n (checkApply ctx d false rw).2 = applyCount n rw ∧
          (checkApply ctx d false rw).2.store.Read n = rw.store.Read n) ∧
      applyCount d.Task.Name (checkApply ctx d false rw).2 ≤ applyCount d.Task.Name rw + 1 ∧
      eventCount d.Task.Name (checkApply ctx d false rw).2 ≤ eventCount d.Task.Name rw + 1 ∧
      ((checkApply ctx d false rw).1 = (false, none) →
        applyCount d.Task.Name (checkApply ctx d false rw).2 = applyCount d.Task.Name rw ∧
          (checkApply ctx d false rw).2.store = rw.store) := by
  by_cases hen : d.Task.IsEnabled = true
  · by_cases hname : d.Task.Name = ""
    · have h0 : (checkApply ctx d false rw).2 = rw := by
        simp [checkApply, hen, hname, event.NewEvent]
      rw [h0]
      exact ⟨fun _ _ => ⟨rfl, rfl⟩, Nat.le_succ _, Nat.le_succ _, fun _ => ⟨rfl, rfl⟩⟩
    · rw [checkApply_enabled ctx d false rw hen hname]
      have hs := callRenderTemplate_snd d ctx rw
      rcases hcr : callRenderTemplate d ctx rw with ⟨⟨rendered, err⟩, rw1⟩
      rw [hcr] at hs
      simp only at hs
      subst hs
      cases err with
      | some renderErr =>
        refine ⟨fun n hn => ⟨?_, ?_⟩, ?_, ?_, ?_⟩
        · simp [applyCount, count_ApplyTask_append_render]
        · exact event.Read_Add_ne _ _ hn
        · simp [applyCount, count_ApplyTask_append_render]
        · exact event.length_Read_Add_le _ _ _
        · intro h
          simp at h
      | none =>
        cases rendered with
        | false =>
          refine ⟨fun n hn => ⟨?_, rfl⟩, ?_, Nat.le_succ _, fun _ => ⟨?_, rfl⟩⟩
          · simp [applyCount, count_ApplyTask_append_render]
          · simp [applyCount, count_ApplyTask_append_render]
          · simp [applyCount, count_ApplyTask_append_render]
        | true =>
          rcases ha : d.ApplyTask ctx (d.RenderTemplate ctx rw.world).2 with ⟨_ | applyErr, w2⟩ <;>
            simp only [if_true, applyStep, Bool.false_eq_true, if_false, callApplyTask, ha]
          · refine ⟨fun n hn => ⟨?_, ?_⟩, ?_, ?_, ?_⟩
            · have hn' : ¬ d.Task.Name = n := fun e => hn e.symm
              simp [applyCount, List.count_cons, hn, hn']
            · exact event.Read_Add_ne _ _ hn
            · simp [applyCount, List.count_cons]
            · exact event.length_Read_Add_le _ _ _
            · intro h
              simp at h
          · refine ⟨fun n hn => ⟨?_, ?_⟩, ?_, ?_, ?_⟩
            · have hn' : ¬ d.Task.Name = n := fun e => hn e.symm
              simp [applyCount, List.count_cons, hn, hn']
            · exact event.Read_Add_ne _ _ hn
            · simp [applyCount, List.count_cons]
            · exact event.length_Read_Add_le _ _ _
            · intro h
              simp at h
  · have hdis : d.Task.IsEnabled = false := by simpa using hen
    rw [checkApply_disabled_eq ctx d false rw hdis]
    exact ⟨fun _ _ => ⟨rfl, rfl⟩, Nat.le_succ _, Nat.le_succ _, fun h => by simp at h⟩

end controller

end CTS

namespace CTS

namespace controller

open driver

/-! ## `Once`: a completed task is not visited again -/

/-- A pass of `Once` does not invoke `checkApply` for a task whose flag is set,
and leaves the flag set. -/
theorem onceRange_completed {σ : Type} (ctx : Context) (l : List (String × Driver σ))
    (s : OnceState σ) (k : String) (hk : (GoMap.get? k s.completed).getD false = true) :
    (onceRange ctx l s).2.invoked.count k = s.invoked.count k ∧
      (GoMap.get? k (onceRange ctx l s).2.completed).getD false = true := by
  induction l generalizing s with
  | nil => exact ⟨rfl, hk⟩
  | cons kd l ih =>
    obtain ⟨k', d⟩ := kd
    rw [onceRange]
    by_cases hg : (!((GoMap.get? k' s.completed).getD false)) = true
    · simp only [hg, if_true]
      have hne : k' ≠ k := by
        intro e
        subst e
        simp [hk] at hg
      have hne' : k ≠ k' := fun e => hne e.symm
      have hcount : (s.invoked ++ [k']).count k = s.invoked.count k := by
        simp [List.count_append, List.count_singleton, hne]
      rcases hca : checkApply ctx d false s.rw with ⟨⟨complete, _ | err⟩, rw'⟩
      · simp only
        have := ih
          { completed := GoMap.set k' complete s.completed
            done := if (!complete && s.done) = true then false else s.done
            invoked := s.invoked ++ [k']
            rw := rw' }
          (by simp only [GoMap.get?_set_ne hne']; exact hk)
        simp only at this
        rw [hcount] at this
        exact this
      · simp only
        exact ⟨hcount, hk⟩
    · simp only [hg]
      exact ih s hk

/-- From the top of any iteration, `Once` does not invoke `checkApply` for a
task whose flag is set. -/
theorem onceLoop_completed {σ : Type} (ctx : Context) (driversCopy : List (String × Driver σ))
    (wakes : List Wake) (s : OnceState σ) (k : String)
    (hk : (GoMap.get? k s.completed).getD false = true)
    (r : GoError × List Wake × OnceState σ) (h : onceLoop ctx driversCopy wakes s = some r) :
    r.2.2.invoked.count k = s.invoked.count k := by
  induction wakes generalizing s with
  | nil =>
    rw [onceLoop_eq] at h
    have h1 := onceRange_completed ctx driversCopy { s with done := true } k hk
    rcases hr : onceRange ctx driversCopy { s with done := true } with ⟨_ | err, s1⟩
    · rw [hr] at h h1
      simp only at h h1
      by_cases hd : s1.done = true
      · simp only [hd, if_true, Option.some.injEq] at h
        subst h
        exact h1.1
      · simp [hd] at h
    · rw [hr] at h h1
      simp only [Option.some.injEq] at h h1
      subst h
      exact h1.1
  | cons w wakes ih =>
    rw [onceLoop_eq] at h
    have h1 := onceRange_completed ctx driversCopy { s with done := true } k hk
    rcases hr : onceRange ctx driversCopy { s with done := true } with ⟨_ | err, s1⟩
    · rw [hr] at h h1
      simp only at h h1
      by_cases hd : s1.done = true
      · simp only [hd, if_true, Option.some.injEq] at h
        subst h
        exact h1.1
      · simp only [hd] at h
        cases w with
        | ctxDone =>
          simp only [Bool.false_eq_true, if_false, Option.some.injEq] at h
          subst h
          exact h1.1
        | watcher e =>
          cases e with
          | some err =>
            simp only [Bool.false_eq_true, if_false, Option.some.injEq] at h
            subst h
            exact h1.1
          | none =>
            simp only [Bool.false_eq_true, if_false] at h
            rw [ih s1 h1.2 h]
            exact h1.1
    · rw [hr] at h h1
      simp only [Option.some.injEq] at h h1
      subst h
      exact h1.1

/-! ## `Once`: each task is applied at most once -/

/-- A pass of `Once` over drivers registered under the name of their task keeps
every task within one `ApplyTask` call and one event of the start of the run,
and leaves the tasks whose flag is not set without a call or an event. -/
theorem onceRange_bound {σ : Type} (ctx : Context) (l : List (String × Driver σ))
    (rw0 : ReadWrite σ) (s : OnceState σ) (hkey : ∀ kd ∈ l, kd.2.Task.Name = kd.1)
    (hB : ∀ n : String, applyCount n s.rw ≤ applyCount n rw0 + 1 ∧
      eventCount n s.rw ≤ eventCount n rw0 + 1)
    (hU : ∀ n : String, (GoMap.get? n s.completed).getD false = false →
      applyCount n s.rw = applyCount n rw0 ∧ s.rw.store.Read n = rw0.store.Read n) :
    (∀ n : String, applyCount n (onceRange ctx l s).2.rw ≤ applyCount n rw0 + 1 ∧
        eventCount n (onceRange ctx l s).2.rw ≤ eventCount n rw0 + 1) ∧
      ((onceRange ctx l s).1 = none →
        ∀ n : String, (GoMap.get? n (onceRange ctx l s).2.completed).getD false = false →
          applyCount n (onceRange ctx l s).2.rw = applyCount n rw0 ∧
            (onceRange ctx l s).2.rw.store.Read n = rw0.store.Read n) := by
  induction l generalizing s with
  | nil => exact ⟨hB, fun _ => hU⟩
  | cons kd l ih =>
    obtain ⟨k, d⟩ := kd
    have hname : d.Task.Name = k := hkey (k, d) (List.mem_cons_self _ _)
    have hkey' : ∀ kd ∈ l, kd.2.Task.Name = kd.1 :=
      fun kd hkd => hkey kd (List.mem_cons_of_mem _ hkd)
    rw [onceRange]
    by_cases hg : (!((GoMap.get? k s.completed).getD false)) = true
    · simp only [hg, if_true]
      have hk : (GoMap.get? k s.completed).getD false = false := by simpa using hg
      obtain ⟨e1, e2, e3, e4⟩ := checkApply_false_effect ctx d s.rw
      rw [hname] at e1 e2 e3 e4
      obtain ⟨u1, u2⟩ := hU k hk
      have hB' : ∀ n : String, applyCount n (checkApply ctx d false s.rw).2 ≤ applyCount n rw0 + 1 ∧
          eventCount n (checkApply ctx d false s.rw).2 ≤ eventCount n rw0 + 1 := by
        intro n
        by_cases hn : n = k
        · subst hn
          have u3 : eventCount n s.rw = eventCount n rw0 := by
            unfold eventCount
            rw [u2]
          constructor
          · omega
          · omega
        · obtain ⟨f1, f2⟩ := e1 n hn
          have f3 : eventCount n (checkApply ctx d false s.rw).2 = eventCount n s.rw := by
            unfold eventCount
            rw [f2]
          rw [f1, f3]
          exact hB n
      rcases hca : checkApply ctx d false s.rw with ⟨⟨complete, _ | err⟩, rw'⟩
      · rw [hca] at e1 e4 hB'
        simp only at e1 e4 hB' ⊢
        apply ih _ hkey' hB'
        intro n hn
        simp only at hn ⊢
        by_cases hnk : n = k
        · subst hnk
          have hc : complete = false := by
            simpa [GoMap.get?_set_self] using hn
          subst hc
          obtain ⟨g1, g2⟩ := e4 rfl
          rw [g1, g2]
          exact ⟨u1, u2⟩
        · rw [GoMap.get?_set_ne hnk] at hn
          obtain ⟨f1, f2⟩ := e1 n hnk
          rw [f1, f2]
          exact hU n hn
      · rw [hca] at hB'
        simp only at hB' ⊢
        exact ⟨hB', fun h => by simp at h⟩
    · simp only [hg]
      exact ih s hkey' hB hU

/-- From the top of any iteration, `Once` keeps every task within one
`ApplyTask` call and one event of the start of the run. -/
theorem onceLoop_bound {σ : Type} (ctx : Context) (driversCopy : List (String × Driver σ))
    (rw0 : ReadWrite σ) (wakes : List Wake) (s : OnceState σ)
    (hkey : ∀ kd ∈ driversCopy, kd.2.Task.Name = kd.1)
    (hB : ∀ n : String, applyCount n s.rw ≤ applyCount n rw0 + 1 ∧
      eventCount n s.rw ≤ eventCount n rw0 + 1)
    (hU : ∀ n : String, (GoMap.get? n s.completed).getD false = false →
      applyCount n s.rw = applyCount n rw0 ∧ s.rw.store.Read n = rw0.store.Read n)
    (r : GoError × List Wake × OnceState σ) (h : onceLoop ctx driversCopy wakes s = some r) :
    ∀ n : String, applyCount n r.2.2.rw ≤ applyCount n rw0 + 1 ∧
      eventCount n r.2.2.rw ≤ eventCount n rw0 + 1 := by
  induction wakes generalizing s with
  | nil =>
    rw [onceLoop_eq] at h
    have h1 := onceRange_bound ctx driversCopy rw0 { s with done := true } hkey hB hU
    rcases hr : onceRange ctx driversCopy { s with done := true } with ⟨_ | err, s1⟩
    · rw [hr] at h h1
      simp only at h h1
      by_cases hd : s1.done = true
      · simp only [hd, if_true, Option.some.injEq] at h
        subst h
        exact h1.1
      · simp [hd] at h
    · rw [hr] at h h1
      simp only [Option.some.injEq] at h h1
      subst h
      exact h1.1
  | cons w wakes ih =>
    rw [onceLoop_eq] at h
    have h1 := onceRange_bound ctx driversCopy rw0 { s with done := true } hkey hB hU
    rcases hr : onceRange ctx driversCopy { s with done := true } with ⟨_ | err, s1⟩
    · rw [hr] at h h1
      simp only at h h1
      by_cases hd : s1.done = true
      · simp only [hd, if_true, Option.some.injEq] at h
        subst h
        exact h1.1
      · simp only [hd] at h
        cases w with
        | ctxDone =>
          simp only [Bool.false_eq_true, if_false, Option.some.injEq] at h
          subst h
          exact h1.1
        | watcher e =>
          cases e with
          | some err =>
            simp only [Bool.false_eq_true, if_false, Option.some.injEq] at h
            subst h
            exact h1.1
          | none =>
            simp only [Bool.false_eq_true, if_false] at h
            exact ih s1 h1.1 (h1.2 trivial) h
    · rw [hr] at h h1
      simp only [Option.some.injEq] at h h1
      subst h
      exact h1.1

end controller

end CTS

namespace CTS

namespace controller

open driver

/-- C21: `Once` invokes `checkApply` only for tasks whose flag in `completed` is
not set, and with `retry` false: a task whose flag is set is passed over, a task
whose flag is not set gets exactly one `checkApply(ctx, d, false)`.  Once
`checkApply` has returned `(true, nil)` for a task, `checkApply` is not invoked
for it again, neither in the rest of the pass nor in any later iteration.  So,
with every driver registered under the name of its task, a run of `Once` makes
at most one `ApplyTask` call for a task and adds at most one event for it. -/
theorem Once_invokes_incomplete_only {σ : Type} (ctx : Context) (wakes : List Wake)
    (rw : ReadWrite σ) (r : GoError × List Wake × OnceState σ)
    (hkey : ∀ kd ∈ rw.drivers.Map, kd.2.Task.Name = kd.1)
    (hrun : Once ctx wakes rw = some r) :
    (∀ n : String, applyCount n r.2.2.rw ≤ applyCount n rw + 1 ∧
        eventCount n r.2.2.rw ≤ eventCount n rw + 1) ∧
      (∀ (k : String) (d : Driver σ) (s : OnceState σ),
        ((GoMap.get? k s.completed).getD false = true → onceRange ctx [(k, d)] s = (none, s)) ∧
        ((GoMap.get? k s.completed).getD false = false →
          (onceRange ctx [(k, d)] s).2.rw = (checkApply ctx d false s.rw).2 ∧
            (onceRange ctx [(k, d)] s).2.invoked = s.invoked ++ [k])) ∧
      (∀ (pre post : List (String × Driver σ)) (k : String) (d : Driver σ)
        (wakes' : List Wake) (s s1 : OnceState σ) (rw2 : ReadWrite σ)
        (r' : GoError × List Wake × OnceState σ),
        onceRange ctx pre { s with done := true } = (none, s1) →
        (GoMap.get? k s1.completed).getD false = false →
        checkApply ctx d false s1.rw = ((true, none), rw2) →
        onceLoop ctx (pre ++ (k, d) :: post) wakes' s = some r' →
        r'.2.2.invoked.count k = s1.invoked.count k + 1) := by
  refine ⟨?_, ?_, ?_⟩
  · exact onceLoop_bound ctx rw.drivers.Map rw wakes
      { completed := [], done := true, invoked := [], rw := rw } hkey
      (fun n => ⟨Nat.le_succ _, Nat.le_succ _⟩) (fun n _ => ⟨rfl, rfl⟩) r hrun
  · intro k d s
    constructor
    · intro hk
      simp [onceRange, hk]
    · intro hk
      rw [onceRange]
      simp only [hk, Bool.not_false, if_true]
      rcases checkApply ctx d false s.rw with ⟨⟨complete, _ | err⟩, rw'⟩
      · exact ⟨rfl, rfl⟩
      · exact ⟨rfl, rfl⟩
  · intro pre post k d wakes' s s1 rw2 r' hpre htodo hret hloop
    have hstep : onceRange ctx (pre ++ (k, d) :: post) { s with done := true } =
        onceRange ctx post
          { completed := GoMap.set k true s1.completed
            done := s1.done
            invoked := s1.invoked ++ [k]
            rw := rw2 } := by
      rw [onceRange_append ctx pre _ _ s1 hpre, onceRange]
      simp [htodo, hret]
    have hset : (GoMap.get? k (GoMap.set k true s1.completed)).getD false = true := by
      simp [GoMap.get?_set_self]
    have hrest := onceRange_completed ctx post
      { completed := GoMap.set k true s1.completed
        done := s1.done
        invoked := s1.invoked ++ [k]
        rw := rw2 } k hset
    have hcount : (s1.invoked ++ [k]).count k = s1.invoked.count k + 1 := by
      simp [List.count_append, List.count_singleton]
    simp only at hrest
    rw [hcount, ← hstep] at hrest
    rw [onceLoop_eq] at hloop
    rcases hr : onceRange ctx (pre ++ (k, d) :: post) { s with done := true } with
      ⟨_ | err, s2⟩
    · rw [hr] at hloop hrest
      simp only at hloop hrest
      by_cases hd : s2.done = true
      · simp only [hd, if_true, Option.some.injEq] at hloop
        subst hloop
        exact hrest.1
      · simp only [hd, Bool.false_eq_true, if_false] at hloop
        cases wakes' with
        | nil => simp at hloop
        | cons w rest =>
          cases w with
          | ctxDone =>
            simp only [Option.some.injEq] at hloop
            subst hloop
            exact hrest.1
          | watcher e =>
            cases e with
            | some err =>
              simp only [Option.some.injEq] at hloop
              subst hloop
              exact hrest.1
            | none =>
              simp only at hloop
              rw [onceLoop_completed ctx _ rest s2 k hrest.2 r' hloop]
              exact hrest.1
    · rw [hr] at hloop hrest
      simp only [Option.some.injEq] at hloop hrest
      subst hloop
      exact hrest.1

/-- C21, witness: `web` renders at once, `db` needs a second wake-up.  `Once`
makes two iterations: `checkApply` is invoked for `web` once and for `db`
twice, `web` is not visited again after it completed, and each task is applied
once and has one event. -/
theorem Once_invokes_incomplete_only_witness :
    ∃ final : OnceState Nat,
      (∀ kd ∈ (readWriteOf [webDriver, slowDbDriver]).drivers.Map, kd.2.Task.Name = kd.1) ∧
      Once ⟨false⟩ [Wake.watcher none] (readWriteOf [webDriver, slowDbDriver]) =
        some (none, [], final) ∧
      final.invoked = ["web", "db", "db"] ∧
      applyCount "web" final.rw = 1 ∧ applyCount "db" final.rw = 1 ∧
      eventCount "web" final.rw = 1 ∧ eventCount "db" final.rw = 1 ∧
      applyCount "web" final.rw ≤ applyCount "web" (readWriteOf [webDriver, slowDbDriver]) + 1 :=
  ⟨_, by decide, rfl, by decide, by decide, by decide, by decide, by decide,
    ((Once_invokes_incomplete_only ⟨false⟩ [Wake.watcher none]
      (readWriteOf [webDriver, slowDbDriver]) _ (by decide) rfl).1 "web").1⟩

end controller

end CTS

/-! ## Workers of the loop and ad-hoc executions -/

namespace CTS

namespace controller

open driver

theorem countP_fst_eq_count {β : Type} (n : String) (l : List (String × β)) :
    l.countP (fun w => decide (w.1 = n)) = (l.map Prod.fst).count n := by
  induction l with
  | nil => rfl
  | cons w l ih =>
    by_cases hw : w.1 = n
    · simp [List.countP_cons, List.count_cons, hw, ih]
    · simp [List.countP_cons, List.count_cons, hw, ih]

theorem set_append_length {α : Type} (l : List α) (a b : α) :
    (l ++ [a]).set l.length b = l ++ [b] := by
  induction l with
  | nil => rfl
  | cons x l ih => simp [List.set, ih]

theorem count_cons_eraseIdx {α : Type} [DecidableEq α] (l : List α) (i : Nat) (n x : α)
    (h : l[i]? = some n) : (l.eraseIdx i).count x + [n].count x = l.count x := by
  have hc := List.Perm.count_eq (perm_cons_eraseIdx l i n h) x
  rw [← hc]
  simp only [List.count_cons, List.count_nil]
  omega

theorem tick_of_match_some {σ : Type} (o : Option (Tick σ)) (f : Tick σ → LoopState σ)
    (s' : LoopState σ)
    (h : (match o with
      | none => none
      | some t => some (f t)) = some s') :
    ∃ t, o = some t ∧ s' = f t := by
  cases o with
  | none => exact Option.noConfusion h
  | some t =>
    simp only [Option.some.injEq] at h
    exact ⟨t, rfl, h.symm⟩

theorem LoopState.step_goroutine {σ : Type} (ctx : Context) (a : TickStep) (s s' : LoopState σ)
    (h : LoopState.step ctx (LoopStep.goroutine a) s = some s') :
    ∃ t, Tick.step ctx a s.tick = some t ∧ s' = { s with tick := t } := by
  cases a <;> rcases htd : s.todo with _ | ⟨e, rest⟩ <;>
    simp only [LoopState.step, htd] at h <;>
    first
      | exact tick_of_match_some _ _ s' h
      | exact Option.noConfusion h

/-- A step launches no worker for a name that has one already, and starts none
twice: no name gets more frequent among the workers under way and the entries
still to visit. -/
theorem LoopState.step_count {σ : Type} (ctx : Context) (a : LoopStep) (s s' : LoopState σ)
    (h : LoopState.step ctx a s = some s') (x : String) :
    s'.names.count x ≤ s.names.count x := by
  cases a with
  | dispatch =>
    simp only [LoopState.step] at h
    rcases ht : s.todo with _ | ⟨⟨n, d⟩, rest⟩
    · rw [ht] at h
      exact Option.noConfusion h
    · rw [ht] at h
      simp only [Option.some.injEq] at h
      subst h
      unfold LoopState.names dispatchOne
      cases hact : s.tick.rw.drivers.IsActive n with
      | true =>
        simp only [if_true, ht, List.map_cons, List.count_append, List.count_cons]
        omega
      | false =>
        simp only [Bool.false_eq_true, if_false, ht, List.map_cons, List.map_append,
          List.map_nil, List.count_append, List.count_cons, List.count_nil]
        omega
  | goroutine a =>
    obtain ⟨t, ht, hs⟩ := LoopState.step_goroutine ctx a s s' h
    subst hs
    unfold LoopState.names
    cases a with
    | start i =>
      rcases hp : s.tick.pending[i]? with _ | ⟨n, d⟩
      · simp only [Tick.step, hp] at ht
        exact Option.noConfusion ht
      · rw [Tick.step_start ctx s.tick i n d hp] at ht
        simp only [Option.some.injEq] at ht
        subst ht
        have hp' : (s.tick.pending.map Prod.fst)[i]? = some n := by
          rw [List.getElem?_map, hp]
          rfl
        have hc := count_cons_eraseIdx (s.tick.pending.map Prod.fst) i n x hp'
        simp only [List.map_append, List.map_cons, List.map_nil, List.count_append,
          map_fst_eraseIdx]
        omega
    | finish j =>
      obtain ⟨_, _, _, _, _, w1, w2, _, _⟩ := Tick.step_finish ctx s.tick t j ht
      have hsub : List.Sublist ((s.tick.running.eraseIdx j).map Prod.fst)
          (s.tick.running.map Prod.fst) :=
        List.Sublist.map Prod.fst (List.eraseIdx_sublist s.tick.running j)
      have hc := List.Sublist.count_le hsub x
      simp only [w1, w2, List.count_append]
      omega
    | close =>
      obtain ⟨_, h1⟩ := Tick.step_close ctx s.tick t ht
      subst h1
      exact le_refl _
  | adhocSetActive name =>
    simp only [LoopState.step, adhocSetActive] at h
    rcases hg : (s.tick.rw.drivers.Get name).1 with _ | d
    · rw [hg] at h
      exact Option.noConfusion h
    · rw [hg] at h
      simp only [Option.some.injEq] at h
      subst h
      exact le_refl _
  | adhocInvoke j retry =>
    simp only [LoopState.step, adhocInvoke] at h
    rcases hg : s.adhoc[j]? with _ | a
    · rw [hg] at h
      exact Option.noConfusion h
    · rw [hg] at h
      cases he : a.executing with
      | true =>
        simp only [he, if_true] at h
        exact Option.noConfusion h
      | false =>
        simp only [he, Bool.false_eq_true, if_false, Option.some.injEq] at h
        subst h
        exact le_refl _
  | adhocEnd j =>
    simp only [LoopState.step, adhocEnd] at h
    rcases hg : s.adhoc[j]? with _ | a
    · rw [hg] at h
      exact Option.noConfusion h
    · rw [hg] at h
      cases he : a.executing with
      | true =>
        simp only [he, if_true, Option.some.injEq] at h
        subst h
        exact le_refl _
      | false =>
        simp only [he, Bool.false_eq_true, if_false] at h
        exact Option.noConfusion h

theorem LoopState.run_count {σ : Type} (ctx : Context) (sched : List LoopStep)
    (s s' : LoopState σ) (h : LoopState.run ctx sched s = some s') (x : String) :
    s'.names.count x ≤ s.names.count x := by
  induction sched generalizing s with
  | nil =>
    simp only [LoopState.run, Option.some.injEq] at h
    subst h
    exact le_refl _
  | cons a rest ih =>
    simp only [LoopState.run] at h
    rcases hs : LoopState.step ctx a s with _ | s1
    · rw [hs] at h
      exact Option.noConfusion h
    · rw [hs] at h
      exact le_trans (ih s1 h) (LoopState.step_count ctx a s s1 hs x)

/-- The loop of `runTasks`, visiting its entries one after the other with
nothing in between, dispatches as `dispatch` does. -/
theorem LoopState.run_dispatch {σ : Type} (ctx : Context) (l : List (String × Driver σ))
    (t : Tick σ) (adhoc : List (AdHoc σ)) :
    LoopState.run ctx (List.replicate l.length LoopStep.dispatch)
        { tick := t, todo := l, adhoc := adhoc } =
      some { tick := dispatch l t, todo := [], adhoc := adhoc } := by
  induction l generalizing t with
  | nil => rfl
  | cons kd l ih =>
    obtain ⟨n, d⟩ := kd
    simp only [List.length_cons, List.replicate_succ, LoopState.run, LoopState.step]
    rw [ih]
    rfl

/-- An ad-hoc execution of a registered task begins whatever the workers of the
loop are doing: `SetActive` and the invocation of `checkApply` are both enabled,
and one more execution of the task is under way afterwards. -/
theorem adhoc_begins {σ : Type} (ctx : Context) (u : LoopState σ) (n : String) (d : Driver σ)
    (retry : Bool) (hg : (u.tick.rw.drivers.Get n).1 = some d) :
    ∃ u' : LoopState σ,
      LoopState.run ctx
          [LoopStep.adhocSetActive n, LoopStep.adhocInvoke u.adhoc.length retry] u = some u' ∧
        workersInFlight n u' = workersInFlight n u ∧ inFlight n u' = inFlight n u + 1 := by
  have hget : (u.adhoc ++ [({ taskName := n, driver := d, executing := false } : AdHoc σ)])[
      u.adhoc.length]? = some { taskName := n, driver := d, executing := false } := by
    simp
  refine ⟨{ tick := { u.tick with
              rw := (checkApply ctx d retry
                { u.tick.rw with drivers := (u.tick.rw.drivers.SetActive n).2 }).2 }
            todo := u.todo
            adhoc := u.adhoc ++ [{ taskName := n, driver := d, executing := true }] },
    ?_, rfl, ?_⟩
  · simp only [LoopState.run, LoopState.step, adhocSetActive, hg, adhocInvoke, hget,
      Bool.false_eq_true, if_false, set_append_length]
  · simp only [inFlight, workersInFlight, List.countP_append,
      List.countP_cons, List.countP_nil, Bool.true_and, decide_True, if_true]
    omega

/-- C20, as stated, fails: `web` and `cache` are registered.  The loop of
`runTasks` reaches `web`, which is not active, and launches its worker; an
ad-hoc execution then calls `SetActive("web")` while the loop goes on to
`cache`; the worker of `web` enters `checkApply`, and so does the ad-hoc
execution: two executions of `checkApply` for `web` are under way. -/
theorem adhoc_overlaps_loop_worker :
    (LoopState.run ⟨false⟩
        [LoopStep.dispatch, LoopStep.adhocSetActive "web", LoopStep.dispatch,
          LoopStep.goroutine (TickStep.start 0), LoopStep.adhocInvoke 0 false]
        (LoopState.enter (readWriteOf [webDriver, cacheDriver]))).map
      (fun s => (inFlight "web" s, workersInFlight "web" s,
        s.tick.rw.drivers.IsActive "web")) = some (2, 1, true) := by
  rfl

/-- C20, amended: in a tick of the continuous loop, whatever the schedule of
the loop of `runTasks`, of its goroutines and of ad-hoc executions, at most
one worker of the loop is inside `checkApply` for a task, the tasks with a
worker under way and the entries the loop has not reached are pairwise
distinct, the loop launches no worker for an entry that is active when the loop
reaches it and one for an entry that is not, and the loop alone dispatches as
`runTasks` does.  An ad-hoc execution, though, begins whatever the workers are
doing, also for a task whose worker is inside `checkApply`. -/
theorem loop_worker_exclusion {σ : Type} (ctx : Context) (rw : ReadWrite σ)
    (sched : List LoopStep) (s : LoopState σ)
    (h : LoopState.run ctx sched (LoopState.enter rw) = some s) :
    (∀ n : String, workersInFlight n s ≤ 1) ∧
      s.names.Nodup ∧
      (∀ (u : LoopState σ) (n : String) (d : Driver σ) (rest : List (String × Driver σ)),
        u.todo = (n, d) :: rest → u.tick.rw.drivers.IsActive n = true →
        LoopState.step ctx LoopStep.dispatch u = some { u with todo := rest }) ∧
      (∀ (u : LoopState σ) (n : String) (d : Driver σ) (rest : List (String × Driver σ)),
        u.todo = (n, d) :: rest → u.tick.rw.drivers.IsActive n = false →
        LoopState.step ctx LoopStep.dispatch u =
          some { u with
            tick := { u.tick with wg := u.tick.wg + 1, pending := u.tick.pending ++ [(n, d)] }
            todo := rest }) ∧
      LoopState.run ctx (List.replicate rw.drivers.Map.length LoopStep.dispatch)
          (LoopState.enter rw) =
        some { tick := runTasks ctx rw, todo := [], adhoc := [] } ∧
      (∀ (u : LoopState σ) (n : String) (d : Driver σ) (retry : Bool),
        (u.tick.rw.drivers.Get n).1 = some d →
        ∃ u' : LoopState σ,
          LoopState.run ctx
              [LoopStep.adhocSetActive n, LoopStep.adhocInvoke u.adhoc.length retry] u =
            some u' ∧
          workersInFlight n u' = workersInFlight n u ∧ inFlight n u' = inFlight n u + 1) := by
  have h0 : ∀ x : String, (LoopState.enter rw).names.count x ≤ 1 := by
    intro x
    have hn : (LoopState.enter rw).names = GoMap.keys rw.drivers.Map := by
      simp [LoopState.names, LoopState.enter, Tick.enter, GoMap.keys]
    rw [hn]
    exact List.nodup_iff_count_le_one.mp (nodup_keys_Map rw.drivers) x
  have hc : ∀ x : String, s.names.count x ≤ 1 := fun x =>
    le_trans (LoopState.run_count ctx sched _ s h x) (h0 x)
  refine ⟨?_, List.nodup_iff_count_le_one.mpr hc, ?_, ?_, ?_, ?_⟩
  · intro n
    have h1 := hc n
    unfold workersInFlight
    rw [countP_fst_eq_count]
    unfold LoopState.names at h1
    simp only [List.count_append] at h1
    omega
  · intro u n d rest ht hact
    simp only [LoopState.step, ht, dispatchOne, hact, if_true]
  · intro u n d rest ht hact
    simp only [LoopState.step, ht, dispatchOne, hact, Bool.false_eq_true, if_false]
  · exact LoopState.run_dispatch ctx rw.drivers.Map (Tick.enter rw) []
  · intro u n d retry hg
    exact adhoc_begins ctx u n d retry hg

/-- C20, amended, witness: `web` and `cache` are registered.  An ad-hoc
execution calls `SetActive("cache")` before the loop of `runTasks` reaches
`cache`: the loop launches a worker for `web` and none for `cache`; the worker
of `web` and the ad-hoc execution of `cache` are then inside `checkApply`, one
execution for each task. -/
theorem loop_worker_exclusion_witness :
    ∃ s : LoopState Nat,
      LoopState.run ⟨false⟩
          [LoopStep.adhocSetActive "cache", LoopStep.dispatch, LoopStep.dispatch,
            LoopStep.goroutine (TickStep.start 0), LoopStep.adhocInvoke 0 false]
          (LoopState.enter (readWriteOf [webDriver, cacheDriver])) = some s ∧
      s.tick.pending.length = 0 ∧
      workersInFlight "cache" s = 0 ∧ inFlight "cache" s = 1 ∧ inFlight "web" s = 1 ∧
      ∀ n : String, workersInFlight n s ≤ 1 :=
  ⟨_, rfl, rfl, rfl, rfl, rfl,
    (loop_worker_exclusion ⟨false⟩ (readWriteOf [webDriver, cacheDriver])
      [LoopStep.adhocSetActive "cache", LoopStep.dispatch, LoopStep.dispatch,
        LoopStep.goroutine (TickStep.start 0), LoopStep.adhocInvoke 0 false]
      _ rfl).1⟩

end controller

end CTS
